import Mathlib

/-!
# Verification of `data/script/data_preprocessing.py`

Shallow embedding of the economic-data preprocessing pipeline
(`EconomicDataPreprocessor`) and proofs of the specification claims.

Modelling conventions:

* A pandas cell is modelled by `Cell`.  `Cell.num q` is a finite float,
  modelled in exact arithmetic over `ℚ`; `Cell.na` is `NaN`/`NaT`.
  `Cell.date d` is a `datetime64` value, encoded as the natural number
  `year*10000 + month*100 + day` (an encoding that is strictly monotone in
  chronological order).  `Cell.raw n d` is an uncoerced (string) cell,
  modelled by its coercion results: `n` is what `pd.to_numeric(errors=coerce)`
  would yield for it (`none` = NaN) and `d` what
  `pd.to_datetime(errors=coerce)` would yield (`none` = NaT); the textual
  format itself is irrelevant to every claim, only the parse outcome matters.
* Arithmetic on cells propagates `NaN` exactly as float arithmetic does, and
  comparisons involving `NaN` are `false`, as in numpy/pandas.
* A `DataFrame` is `DF`: a row-label list (`idx`, the pandas index), the
  ordered column names, and the rows (each row one `Cell` per column).
* Division of floats by zero yields `±inf`/`NaN`; non-finite results are
  modelled as `Cell.na` (no claim distinguishes `inf` from missing).
-/

inductive Cell where
  | num  (q : ℚ)
  | date (d : ℕ)
  | raw  (asNum : Option ℚ) (asDate : Option ℕ)
  | na
deriving DecidableEq, Repr

/-- A pandas DataFrame: row labels (`index`), column names, rows. -/
structure DF where
  idx      : List ℕ
  colNames : List String
  rows     : List (List Cell)
deriving DecidableEq, Repr

/-- Well-formedness of a DataFrame: as many row labels as rows, and every
row has one cell per column (pandas frames are rectangular). -/
def DF.WF (df : DF) : Prop :=
  df.idx.length = df.rows.length ∧ ∀ r ∈ df.rows, r.length = df.colNames.length

instance (df : DF) : Decidable df.WF := by unfold DF.WF; infer_instance

/-- Index of a column name in a name list (first occurrence), as pandas
column lookup does. -/
def idxOf? (name : String) : List String → Option ℕ
  | [] => none
  | c :: cs => if c = name then some 0 else (idxOf? name cs).map (· + 1)

/-- The column `name` of `df` as a list of cells (one per row), if present. -/
def getCol (df : DF) (name : String) : Option (List Cell) :=
  (idxOf? name df.colNames).map (fun j => df.rows.map (fun r => r.getD j .na))

/-- `df[name] = vals`: overwrite the column in place if it exists, otherwise
append it as a new last column. -/
def setCol (df : DF) (name : String) (vals : List Cell) : DF :=
  match idxOf? name df.colNames with
  | some j => ⟨df.idx, df.colNames, List.zipWith (fun r v => r.set j v) df.rows vals⟩
  | none   => ⟨df.idx, df.colNames ++ [name],
               List.zipWith (fun r v => r ++ [v]) df.rows vals⟩

/-- Apply `f` to every cell of column `name` (no-op if the column is absent). -/
def mapCol (df : DF) (name : String) (f : Cell → Cell) : DF :=
  match idxOf? name df.colNames with
  | none   => df
  | some j => ⟨df.idx, df.colNames, df.rows.map (fun r => r.set j (f (r.getD j .na)))⟩

/-! ## Date machinery for `pd.date_range(start='2020-01-01', periods=n, freq='M')`

pandas `freq='M'` is month-END frequency: the range consists of the last
calendar days of consecutive months, beginning with the first month-end on or
after the start date (2020-01-31 for start 2020-01-01). -/

def isLeapYear (y : ℕ) : Bool := y % 4 = 0 && (y % 100 ≠ 0 || y % 400 = 0)

def daysInMonth (y m : ℕ) : ℕ :=
  if m = 2 then (if isLeapYear y then 29 else 28)
  else if m = 4 ∨ m = 6 ∨ m = 9 ∨ m = 11 then 30
  else 31

/-- Encode year/month/day as `y*10000 + m*100 + d`; strictly monotone in
chronological order for calendar dates. -/
def encodeDate (y m d : ℕ) : ℕ := y * 10000 + m * 100 + d

/-- The `i`-th element (0-based) of `pd.date_range('2020-01-01', freq='M')`:
the last day of the `i`-th month counted from January 2020. -/
def monthEnd (i : ℕ) : ℕ :=
  encodeDate (2020 + i / 12) (i % 12 + 1) (daysInMonth (2020 + i / 12) (i % 12 + 1))

/-- `pd.date_range(start='2020-01-01', periods=n, freq='M')`. -/
def dateRangeM (n : ℕ) : List ℕ := (List.range n).map monthEnd

/-! ## Date Normalizer (`clean_date_column`, lines 65-82) -/

/-- `pd.to_datetime(cell, errors='coerce')`: dates stay, a raw cell becomes
its date-parse result or NaT, everything else NaT.  (Numeric-epoch
coercion of float cells is abstracted as unparseable; no claim exercises it.) -/
def toDatetimeCoerce : Cell → Cell
  | .date d          => .date d
  | .raw _ (some d)  => .date d
  | _                => .na

/-- The date key of a cell: `some d` for a valid date, `none` for NaT. -/
def dateKeyCell : Cell → Option ℕ
  | .date d => some d
  | _       => none

/-- Comparator used by `sort_values('Date')`: ascending on valid dates,
NaT sorted last (`na_position='last'`). -/
def keyLe : Option ℕ → Option ℕ → Bool
  | some a, some b => a ≤ b
  | some _, none   => true
  | none,   some _ => false
  | none,   none   => true

/-- `df.sort_values('Date')`: reorder the rows (together with their index
labels) so that the Date column is ascending, NaT last.  (Modelled with a
stable insertion sort; pandas' sort guarantees a sorted permutation of the
rows, which is all any claim depends on.) -/
def sortByDate (df : DF) : DF :=
  match idxOf? "Date" df.colNames with
  | none   => df
  | some j =>
    let pairs := List.insertionSort
      (fun a b : ℕ × List Cell =>
        keyLe (dateKeyCell (a.2.getD j .na)) (dateKeyCell (b.2.getD j .na)) = true)
      (df.idx.zip df.rows)
    ⟨pairs.map Prod.fst, df.colNames, pairs.map Prod.snd⟩

/-- `df.reset_index(drop=True)`: relabel rows `0, 1, 2, …`. -/
def resetIndex (df : DF) : DF := ⟨List.range df.rows.length, df.colNames, df.rows⟩

/-- `df.dropna(subset=['Date'])`: drop every row (with its label) whose Date
cell is NaT. -/
def dropnaDate (df : DF) : DF :=
  match idxOf? "Date" df.colNames with
  | none   => df
  | some j =>
    let pairs := (df.idx.zip df.rows).filter
      (fun p => (dateKeyCell (p.2.getD j .na)).isSome)
    ⟨pairs.map Prod.fst, df.colNames, pairs.map Prod.snd⟩

/-- Number of NaT entries of the Date column (`df['Date'].isna().sum()`). -/
def countInvalidDates (df : DF) : ℕ :=
  ((getCol df "Date").getD []).countP (fun c => !(dateKeyCell c).isSome)

/-- `clean_date_column` (lines 65-82): synthesize a monthly Date column when
none exists, otherwise coerce it and drop rows with invalid dates; finally
sort by date and renumber the index from 0. -/
def clean_date_column (df : DF) : DF :=
  let df1 :=
    if "Date" ∉ df.colNames then
      setCol df "Date" ((dateRangeM df.rows.length).map Cell.date)
    else
      let dfc := mapCol df "Date" toDatetimeCoerce
      if countInvalidDates dfc > 0 then dropnaDate dfc else dfc
  resetIndex (sortByDate df1)

/-! ## Numeric Sanitizer (`clean_numeric_columns`, lines 84-116) -/

/-- The nine registered numeric indicator columns (`expected_columns` minus
`Date`, lines 35-46 / 88). -/
def numericColumns : List String :=
  ["Inflation_Rate", "GDP", "Consumption", "Investment", "Government_Spending",
   "Net_Exports", "Government_Revenue", "Expenditure", "Fiscal_Deficit"]

/-- `pd.to_numeric(cell, errors='coerce')`: numbers stay, a raw cell becomes
its numeric-parse result or NaN, NaN stays NaN.  (A datetime cell inside a
registered numeric column is unreachable in the pipeline — dates live only in
the `Date` column, which line 88 excludes — and is modelled as NaN.) -/
def pdToNumeric : Cell → Cell
  | .num q          => .num q
  | .raw (some q) _ => .num q
  | _               => .na

/-- `pd.isna` on a cell. -/
def cellIsNA : Cell → Bool
  | .na => true
  | _   => false

/-- The non-missing numeric values of a column (what pandas `mean`/`std`
aggregate over, `skipna=True`). -/
def colVals (col : List Cell) : List ℚ :=
  col.filterMap (fun c => match c with | .num q => some q | _ => none)

/-- `df[col].mean()`: NaN (`none`) on an all-missing column. -/
def colMean (col : List Cell) : Option ℚ :=
  let v := colVals col
  if v.length = 0 then none else some (v.sum / v.length)

/-- `df[col].std()` squared, i.e. the sample variance (`ddof=1`): NaN
(`none`) when fewer than two non-missing values.  We track the variance
rather than the standard deviation so as to stay in exact arithmetic;
theorems phrase the 3-sigma test in its squared form. -/
def colVar (col : List Cell) : Option ℚ :=
  let v := colVals col
  match colMean col with
  | none   => none
  | some m => if v.length ≤ 1 then none
              else some ((v.map (fun x => (x - m) ^ 2)).sum / ((v.length : ℚ) - 1))

/-- The outlier test of lines 100-107 for one cell: `|x - mean| > 3 * std`,
expressed equivalently as `(x - mean)^2 > 9 * var` (both sides of the source
comparison are nonnegative, and `(3*std)^2 = 9*var`).  A NaN cell compares
false, as floats do. -/
def flagCell (m v : ℚ) : Cell → Bool
  | .num q => (q - m) ^ 2 > 9 * v
  | _      => false

/-- The per-row outlier flags of one column (lines 100-107): skipped when the
column is all-missing (line 101); when the standard deviation is NaN (fewer
than two values) every float comparison with the NaN threshold is false. -/
def outlierFlags (col : List Cell) : List Bool :=
  if col.all cellIsNA then col.map (fun _ => false)
  else
    match colMean col, colVar col with
    | some m, some v => col.map (flagCell m v)
    | _, _ => col.map (fun _ => false)

/-- `clean_numeric_columns` (lines 84-116): coerce each registered numeric
column that is present; outlier detection (lines 100-112) only logs and is
explicitly disabled from modifying data, so the table transformation is the
coercion alone. -/
def clean_numeric_columns (df : DF) : DF :=
  numericColumns.foldl (fun d col => mapCol d col pdToNumeric) df

/-! ## Missing-Value Imputer (`handle_missing_values`, lines 118-139) -/

/-- A column has numeric dtype (`select_dtypes(include=[np.number])`) when
every cell is a float or NaN; object (string-bearing) and datetime columns
are excluded. -/
def numericDtype (col : List Cell) : Bool :=
  col.all (fun c => match c with | .num _ => true | .na => true | _ => false)

/-- Last valid (float) entry at position `≤ k`, with its position. -/
def lastNumBefore (col : List Cell) (k : ℕ) : Option (ℕ × ℚ) :=
  ((List.range (k + 1)).filterMap
    (fun i => match col.getD i .na with | .num q => some (i, q) | _ => none)).getLast?

/-- First valid (float) entry at position `≥ k`, with its position. -/
def firstNumFrom (col : List Cell) (k : ℕ) : Option (ℕ × ℚ) :=
  ((List.range col.length).filterMap
    (fun i => if k ≤ i then
                match col.getD i .na with | .num q => some (i, q) | _ => none
              else none)).head?

/-- One cell of `Series.interpolate(method='linear')`: a NaN bounded on both
sides is filled linearly on the integer position axis; a trailing NaN takes
the last valid value (pandas' default forward limit direction); a leading NaN
stays NaN. -/
def interpolateCell (col : List Cell) (k : ℕ) : Cell :=
  match col.getD k .na with
  | .na =>
    match lastNumBefore col k, firstNumFrom col k with
    | some (i, a), some (j, b) =>
        .num (a + (b - a) * (((k : ℚ) - i) / ((j : ℚ) - i)))
    | some (_, a), none => .num a
    | none, _ => .na
  | c => c

/-- `Series.interpolate(method='linear')` over a whole column. -/
def interpolateCol (col : List Cell) : List Cell :=
  (List.range col.length).map (interpolateCell col)

/-- `Series.fillna(method='ffill')`: NaN takes the nearest prior valid value. -/
def ffillGo : Option Cell → List Cell → List Cell
  | _, [] => []
  | last, .na :: cs => (last.getD .na) :: ffillGo last cs
  | _, c :: cs => c :: ffillGo (some c) cs

def ffillCells (l : List Cell) : List Cell := ffillGo none l

/-- `Series.fillna(method='bfill')`: NaN takes the nearest later valid value. -/
def bfillCells (l : List Cell) : List Cell := (ffillCells l.reverse).reverse

/-- `Series.fillna(v)` with a scalar that may itself be NaN (an all-missing
column's mean/median), in which case nothing is filled. -/
def fillConst (v : Option ℚ) (col : List Cell) : List Cell :=
  col.map (fun c => match c with
    | .na => match v with | some q => .num q | none => .na
    | c'  => c')

/-- `df[col].median()`: middle of the sorted non-missing values, mean of the
two middles for an even count, NaN for an empty column. -/
def colMedian (col : List Cell) : Option ℚ :=
  let v := List.insertionSort (fun a b : ℚ => a ≤ b) (colVals col)
  if v.length = 0 then none
  else if v.length % 2 = 1 then some (v.getD (v.length / 2) 0)
  else some ((v.getD (v.length / 2 - 1) 0 + v.getD (v.length / 2) 0) / 2)

/-- Apply a column transformation to every numeric-dtype column of the frame
(`df[numeric_columns] = df[numeric_columns].<op>`), leaving the other
columns untouched. -/
def mapNumericCols (df : DF) (f : List Cell → List Cell) : DF :=
  let cols := (List.range df.colNames.length).map
    (fun j => df.rows.map (fun r => r.getD j .na))
  let cols' := cols.map (fun col => if numericDtype col then f col else col)
  ⟨df.idx, df.colNames,
   (List.range df.rows.length).map (fun i => cols'.map (fun col => col.getD i .na))⟩

/-- `handle_missing_values` (lines 118-139): dispatch on the strategy name;
an unknown name warns and falls back to linear interpolation (lines 135-137). -/
def handle_missing_values (df : DF) (method : String) : DF :=
  if method = "interpolate" then mapNumericCols df interpolateCol
  else if method = "forward_fill" then mapNumericCols df ffillCells
  else if method = "backward_fill" then mapNumericCols df bfillCells
  else if method = "mean" then mapNumericCols df (fun col => fillConst (colMean col) col)
  else if method = "median" then mapNumericCols df (fun col => fillConst (colMedian col) col)
  else mapNumericCols df interpolateCol

/-! ## Consistency Validator (`validate_economic_relationships`, lines 141-191)

Cell arithmetic mirrors numpy float series operations on numeric columns:
NaN propagates through `+ - abs * /`, and any comparison involving NaN is
false.  (pandas would raise on arithmetic over string-bearing object columns;
the validator runs after numeric coercion, and the theorems about it carry
the corresponding numeric hypotheses.) -/

def cAdd : Cell → Cell → Cell
  | .num a, .num b => .num (a + b)
  | _, _ => .na

def cSub : Cell → Cell → Cell
  | .num a, .num b => .num (a - b)
  | _, _ => .na

def cAbs : Cell → Cell
  | .num a => .num |a|
  | _ => .na

/-- Scalar times series, `k * x`. -/
def cMulQ (k : ℚ) : Cell → Cell
  | .num a => .num (k * a)
  | _ => .na

/-- Series divided by scalar, `x / k`. -/
def cDivQ (k : ℚ) : Cell → Cell
  | .num a => .num (a / k)
  | _ => .na

/-- Series divided by series; a zero denominator gives a non-finite float,
modelled as missing. -/
def cDiv : Cell → Cell → Cell
  | .num a, .num b => if b = 0 then .na else .num (a / b)
  | _, _ => .na

def cGt : Cell → Cell → Bool
  | .num a, .num b => a > b
  | _, _ => false

/-- `x < 0` on a cell (line 180): false for NaN, as in pandas. -/
def cLtZero : Cell → Bool
  | .num a => a < 0
  | _ => false

/-- A validation issue.  The constructors model the three f-string messages
appended at lines 159, 172 and 182:
`"GDP components don't sum to GDP in {count} rows"`,
`"Fiscal deficit calculation inconsistent in {count} rows"`, and
`"{col} has {count} negative values"`. -/
inductive Issue where
  | gdpIdentity (count : ℕ)
  | fiscalDeficit (count : ℕ)
  | negativeValues (col : String) (count : ℕ)
deriving DecidableEq, Repr

/-- Per-row flags of the GDP-identity check (lines 148-155): present only
when GDP and all four components are columns of the frame; a row is flagged
when `|GDP - (C + I + G + NX)| > 0.05 * |GDP|`. -/
def gdpIdentityFlags (df : DF) : Option (List Bool) :=
  match getCol df "GDP", getCol df "Consumption", getCol df "Investment",
        getCol df "Government_Spending", getCol df "Net_Exports" with
  | some g, some c, some i, some gs, some nx =>
    let csum := List.zipWith cAdd (List.zipWith cAdd (List.zipWith cAdd c i) gs) nx
    let diff := List.zipWith (fun a b => cAbs (cSub a b)) g csum
    let tol := g.map (fun a => cMulQ 0.05 (cAbs a))
    some (List.zipWith cGt diff tol)
  | _, _, _, _, _ => none

/-- Per-row flags of the fiscal-deficit check (lines 162-168): a row is
flagged when `|Fiscal_Deficit - (Expenditure - Government_Revenue)| >
0.01 * |Expenditure|`. -/
def fiscalFlags (df : DF) : Option (List Bool) :=
  match getCol df "Fiscal_Deficit", getCol df "Government_Revenue",
        getCol df "Expenditure" with
  | some fd, some gr, some ex =>
    let calcd := List.zipWith cSub ex gr
    let diff := List.zipWith (fun a b => cAbs (cSub a b)) fd calcd
    let tol := ex.map (fun a => cMulQ 0.01 (cAbs a))
    some (List.zipWith cGt diff tol)
  | _, _, _ => none

/-- The sign-constrained columns of lines 175-176. -/
def positiveColumns : List String :=
  ["GDP", "Consumption", "Investment", "Government_Spending",
   "Government_Revenue", "Expenditure"]

/-- `(df[col] < 0).sum()` (line 180), when the column is present. -/
def negCount (df : DF) (col : String) : Option ℕ :=
  (getCol df col).map (fun c => c.countP cLtZero)

/-- Lines 157-159: one `gdpIdentity` issue carrying the flagged-row count,
appended only when at least one row is flagged (and only when all five
columns are present). -/
def gdpIssueList (df : DF) : List Issue :=
  match gdpIdentityFlags df with
  | some flags => if flags.any id then [Issue.gdpIdentity (flags.countP id)] else []
  | none => []

/-- Lines 170-172: one `fiscalDeficit` issue carrying the flagged-row count. -/
def fiscalIssueList (df : DF) : List Issue :=
  match fiscalFlags df with
  | some flags => if flags.any id then [Issue.fiscalDeficit (flags.countP id)] else []
  | none => []

/-- The loop body of lines 178-182: for one sign-constrained column, an issue
with its negative count when the column is present and the count positive. -/
def negIssueEntry (df : DF) (col : String) : Option Issue :=
  match negCount df col with
  | some k => if k > 0 then some (Issue.negativeValues col k) else none
  | none => none

/-- `validate_economic_relationships` (lines 141-191): collect the issues of
the three checks in source order and return the frame untouched together
with them. -/
def validate_economic_relationships (df : DF) : DF × List Issue :=
  (df, gdpIssueList df ++ fiscalIssueList df
         ++ positiveColumns.filterMap (negIssueEntry df))

/-! ## Derived-Indicator Calculator (`add_derived_variables`, lines 193-216) -/

/-- `Series.shift(k)`: `k` leading NaN, then the original values. -/
def shiftCells (k : ℕ) (l : List Cell) : List Cell :=
  (List.replicate k Cell.na ++ l).take l.length

/-- `Series.pct_change(periods=12)` with its default `fill_method='pad'`:
forward-fill, then `filled / filled.shift(12) - 1` per row. -/
def pctChange12 (l : List Cell) : List Cell :=
  let filled := ffillCells l
  List.zipWith (fun a b => cSub (cDiv a b) (.num 1)) filled (shiftCells 12 filled)

/-- `Series.cumprod()` (`skipna=True`): a NaN entry yields NaN in place and
leaves the running product unchanged. -/
def cumprodGo (acc : ℚ) : List Cell → List Cell
  | [] => []
  | .num q :: cs => .num (acc * q) :: cumprodGo (acc * q) cs
  | _ :: cs => .na :: cumprodGo acc cs

def cumprodCells (l : List Cell) : List Cell := cumprodGo 1 l

/-- Lines 197-199: append GDP_Growth_Rate = `pct_change(12) * 100` of GDP
when GDP is present and the table has more than 12 rows. -/
def addGdpGrowth (df : DF) : DF :=
  if "GDP" ∈ df.colNames ∧ df.rows.length > 12 then
    setCol df "GDP_Growth_Rate"
      ((pctChange12 ((getCol df "GDP").getD [])).map (cMulQ 100))
  else df

/-- Lines 201-203: append Fiscal_Balance_GDP_Ratio = `(Fiscal_Deficit / GDP) * 100`. -/
def addFiscalBalance (df : DF) : DF :=
  if "Fiscal_Deficit" ∈ df.colNames ∧ "GDP" ∈ df.colNames then
    setCol df "Fiscal_Balance_GDP_Ratio"
      (List.zipWith (fun a b => cMulQ 100 (cDiv a b))
        ((getCol df "Fiscal_Deficit").getD []) ((getCol df "GDP").getD []))
  else df

/-- Lines 205-207: append Gov_Spending_GDP_Ratio = `(Government_Spending / GDP) * 100`. -/
def addGovSpending (df : DF) : DF :=
  if "Government_Spending" ∈ df.colNames ∧ "GDP" ∈ df.colNames then
    setCol df "Gov_Spending_GDP_Ratio"
      (List.zipWith (fun a b => cMulQ 100 (cDiv a b))
        ((getCol df "Government_Spending").getD []) ((getCol df "GDP").getD []))
  else df

/-- Lines 209-214: append Price_Index = `100 * (1 + Inflation_Rate/100).cumprod()`
and Real_GDP = `GDP / (Price_Index / 100)` when GDP and Inflation_Rate exist. -/
def addPriceAndReal (df : DF) : DF :=
  if "GDP" ∈ df.colNames ∧ "Inflation_Rate" ∈ df.colNames then
    let priceIdx :=
      (cumprodCells (((getCol df "Inflation_Rate").getD []).map
        (fun c => cAdd (.num 1) (cDivQ 100 c)))).map (cMulQ 100)
    let df4 := setCol df "Price_Index" priceIdx
    setCol df4 "Real_GDP"
      (List.zipWith (fun g p => cDiv g (cDivQ 100 p))
        ((getCol df4 "GDP").getD []) ((getCol df4 "Price_Index").getD []))
  else df

/-- `add_derived_variables` (lines 193-216): the four conditional column
appends, in source order. -/
def add_derived_variables (df : DF) : DF :=
  addPriceAndReal (addGovSpending (addFiscalBalance (addGdpGrowth df)))

/-! ## Statement-side accessors and concrete tables used by the theorems -/

/-- The rationals of an all-float column: `some qs` iff every cell is a
number (no NaN, no uncoerced cell). -/
def cellsQ? : List Cell → Option (List ℚ)
  | [] => some []
  | .num q :: cs => (cellsQ? cs).map (q :: ·)
  | _ :: _ => none

/-- Column `name` of `df` as a list of rationals, when it is present and
all-float. -/
def getColQ (df : DF) (name : String) : Option (List ℚ) :=
  (getCol df name).bind cellsQ?

/-- Recognize the GDP-identity issue. -/
def isGdpIssue : Issue → Bool
  | .gdpIdentity _ => true
  | _ => false

/-- Recognize the sign-constraint issue of column `col`. -/
def isNegIssueFor (col : String) : Issue → Bool
  | .negativeValues c _ => c == col
  | _ => false

def dfW8 : DF := ⟨[0, 1, 2], ["GDP"], [[Cell.num 1], [Cell.na], [Cell.num 3]]⟩

def noDateDF : DF := ⟨[0], ["GDP"], [[Cell.num 1]]⟩

def mixedDateDF : DF :=
  ⟨[0, 1, 2], ["Date", "GDP"],
   [[Cell.raw none (some 20210101), Cell.num 1],
    [Cell.raw none none, Cell.num 2],
    [Cell.date 20200505, Cell.num 3]]⟩

/-- One row of the spec's end-to-end scenario A (g = GDP, c = Consumption;
Investment 100, Government_Spending 100, Net_Exports 0). -/
def scenARow (g c : ℚ) : List Cell :=
  [Cell.date 20200131, Cell.num g, Cell.num c, Cell.num 100, Cell.num 100, Cell.num 0]

/-- The spec's scenario-A table: 15 rows; row 5 has components summing to
1200 against GDP 1000 (beyond the 5% tolerance), all other rows consistent. -/
def scenADF : DF :=
  ⟨List.range 15,
   ["Date", "GDP", "Consumption", "Investment", "Government_Spending", "Net_Exports"],
   (List.range 15).map (fun i => if i = 5 then scenARow 1000 1000 else scenARow 1000 800)⟩

def negValsDF : DF :=
  ⟨[0, 1, 2], ["GDP"], [[Cell.num 5], [Cell.na], [Cell.num (-3)]]⟩

/-- Rectangularity of the rows alone (the part of `DF.WF` the column
operations interact with). -/
def Rect (df : DF) : Prop := ∀ r ∈ df.rows, r.length = df.colNames.length

/-- Witness table for the Derived-Indicator Price_Index claim. -/
def dfC5 : DF :=
  ⟨[0, 1], ["GDP", "Inflation_Rate"],
   [[Cell.num 100, Cell.num 10], [Cell.num 200, Cell.num 20]]⟩

/-- Witness table for the GDP_Growth_Rate claim: 13 rows of GDP. -/
def dfC6 : DF :=
  ⟨List.range 13, ["GDP"], (List.range 13).map (fun i => [Cell.num (100 + i)])⟩

/-- Witness table for the outlier-safety claim: a constant column and an
all-missing column. -/
def dfC7 : DF :=
  ⟨[0, 1, 2], ["GDP", "Expenditure"],
   [[Cell.num 7, Cell.na], [Cell.num 7, Cell.na], [Cell.na, Cell.na]]⟩

/-! ## Support lemmas -/

theorem idxOf?_eq_none_iff {name : String} {l : List String} :
    idxOf? name l = none ↔ name ∉ l := by
  induction l with
  | nil => simp [idxOf?]
  | cons c cs ih =>
    by_cases hc : c = name
    · simp [idxOf?, hc]
    · have hne : name ≠ c := fun h' => hc h'.symm
      simp [idxOf?, hc, hne, ih]

theorem idxOf?_isSome_iff {name : String} {l : List String} :
    (idxOf? name l).isSome ↔ name ∈ l := by
  constructor
  · intro hs
    by_contra hm
    rw [idxOf?_eq_none_iff.mpr hm] at hs
    simp at hs
  · intro hm
    cases h : idxOf? name l with
    | none => exact absurd hm (idxOf?_eq_none_iff.mp h)
    | some j => simp

theorem idxOf?_lt_length {name : String} {l : List String} {j : ℕ}
    (h : idxOf? name l = some j) : j < l.length := by
  induction l generalizing j with
  | nil => simp [idxOf?] at h
  | cons c cs ih =>
    by_cases hc : c = name
    · simp only [idxOf?, if_pos hc, Option.some.injEq] at h
      simp [← h]
    · simp only [idxOf?, if_neg hc] at h
      cases h' : idxOf? name cs with
      | none => rw [h'] at h; simp at h
      | some k =>
        rw [h'] at h
        have hk := ih h'
        have : k + 1 = j := by simpa using h
        simp only [List.length_cons]
        omega

theorem idxOf?_append_self {name : String} {l : List String} (h : name ∉ l) :
    idxOf? name (l ++ [name]) = some l.length := by
  induction l with
  | nil => simp [idxOf?]
  | cons c cs ih =>
    simp only [List.mem_cons, not_or] at h
    have hc : ¬ c = name := fun h' => h.1 h'.symm
    simp [idxOf?, hc, ih h.2]

theorem keyLe_trans (a b c : Option ℕ) :
    keyLe a b = true → keyLe b c = true → keyLe a c = true := by
  intro h1 h2
  cases a <;> cases b <;> cases c <;> simp_all [keyLe] <;> omega

theorem keyLe_total (a b : Option ℕ) : (keyLe a b || keyLe b a) = true := by
  cases a <;> cases b <;> simp [keyLe] <;> omega

theorem daysInMonth_bounds (y m : ℕ) :
    1 ≤ daysInMonth y m ∧ daysInMonth y m ≤ 31 := by
  unfold daysInMonth
  rcases Nat.decEq m 2 with h2 | h2 <;> by_cases h4 : m = 4 ∨ m = 6 ∨ m = 9 ∨ m = 11 <;>
    cases hl : isLeapYear y <;> simp [h2, h4, hl] <;> omega

theorem monthEnd_lt_succ (i : ℕ) : monthEnd i < monthEnd (i + 1) := by
  have h1 := daysInMonth_bounds (2020 + i / 12) (i % 12 + 1)
  have h2 := daysInMonth_bounds (2020 + (i + 1) / 12) ((i + 1) % 12 + 1)
  unfold monthEnd encodeDate
  omega

theorem monthEnd_strictMono : StrictMono monthEnd :=
  strictMono_nat_of_lt_succ monthEnd_lt_succ

/-! ## Claim theorems (first group) -/

/-- C4: for every input table, the table returned by
`validate_economic_relationships` is the input itself — none of the three
checks adds, removes or modifies a cell, row or column. -/
theorem validate_preserves_table (df : DF) :
    (validate_economic_relationships df).1 = df := rfl

/-- C8: for every table and every strategy name outside the five known ones,
`handle_missing_values` produces exactly the table the linear-interpolate
strategy would produce. -/
theorem handle_missing_values_unknown_fallback (df : DF) (method : String)
    (h : method ∉ ["interpolate", "forward_fill", "backward_fill", "mean", "median"]) :
    handle_missing_values df method = handle_missing_values df "interpolate" := by
  simp only [List.mem_cons, not_or, List.not_mem_nil] at h
  obtain ⟨h1, h2, h3, h4, h5, -⟩ := h
  simp [handle_missing_values, h1, h2, h3, h4, h5]


/-- Witness for C8 at the spec's scenario-C strategy name. -/
theorem handle_missing_values_unknown_fallback_witness :
    "bogus_method" ∉ ["interpolate", "forward_fill", "backward_fill", "mean", "median"] ∧
    handle_missing_values dfW8 "bogus_method" = handle_missing_values dfW8 "interpolate" :=
  ⟨by decide, handle_missing_values_unknown_fallback dfW8 "bogus_method" (by decide)⟩

theorem getD_append_self (r : List Cell) (v : Cell) :
    (r ++ [v]).getD r.length .na = v := by
  simp [List.getD_eq_getElem?_getD, List.getElem?_append]

theorem zipWith_append_getD (rows : List (List Cell)) (vals : List Cell) (j : ℕ)
    (h : ∀ r ∈ rows, r.length = j) :
    (List.zipWith (fun r v => r ++ [v]) rows vals).map (fun r => r.getD j .na)
      = vals.take rows.length := by
  induction rows generalizing vals with
  | nil => simp
  | cons r rs ih =>
    cases vals with
    | nil => simp
    | cons v vs =>
      have hr : r.length = j := h r (by simp)
      simp only [List.zipWith_cons_cons, List.map_cons, List.length_cons,
        List.take_succ_cons]
      have h1 : (r ++ [v]).getD j .na = v := by rw [← hr]; exact getD_append_self r v
      rw [h1, ih vs (fun r' hr' => h r' (by simp [hr']))]

theorem sortByDate_sorted_eq (df1 : DF) {j : ℕ}
    (hj : idxOf? "Date" df1.colNames = some j)
    (hsorted : List.Pairwise (fun a b : ℕ × List Cell =>
       keyLe (dateKeyCell (a.2.getD j .na)) (dateKeyCell (b.2.getD j .na)) = true)
       (df1.idx.zip df1.rows)) :
    sortByDate df1 = ⟨(df1.idx.zip df1.rows).map Prod.fst, df1.colNames,
                      (df1.idx.zip df1.rows).map Prod.snd⟩ := by
  unfold sortByDate
  rw [hj]
  dsimp only
  rw [List.Sorted.insertionSort_eq hsorted]

/-- C2 (amended): with no `Date` column, the Date Normalizer assigns exactly
`len(df)` dates, one per row in row order: the last days of consecutive
calendar months counted from January 2020 (so the first date is 2020-01-31,
`freq='M'` being month-end frequency — not 2020-01-01). -/
theorem clean_date_column_no_date (df : DF) (hwf : df.WF)
    (hnd : "Date" ∉ df.colNames) :
    getCol (clean_date_column df) "Date"
      = some ((dateRangeM df.rows.length).map Cell.date) ∧
    (clean_date_column df).rows.length = df.rows.length := by
  obtain ⟨hidx, hrowlen⟩ := hwf
  have hnone : idxOf? "Date" df.colNames = none := idxOf?_eq_none_iff.mpr hnd
  have hvlen : ((dateRangeM df.rows.length).map Cell.date).length = df.rows.length := by
    simp [dateRangeM]
  have hdf1 : clean_date_column df
      = resetIndex (sortByDate ⟨df.idx, df.colNames ++ ["Date"],
          List.zipWith (fun r v => r ++ [v]) df.rows
            ((dateRangeM df.rows.length).map Cell.date)⟩) := by
    unfold clean_date_column setCol
    rw [if_pos hnd, hnone]
  have hj : idxOf? "Date" (df.colNames ++ ["Date"]) = some df.colNames.length :=
    idxOf?_append_self hnd
  have hr1len : (List.zipWith (fun r v => r ++ [v]) df.rows
      ((dateRangeM df.rows.length).map Cell.date)).length = df.rows.length := by
    simp [List.length_zipWith, hvlen]
  have hmap : (List.zipWith (fun r v => r ++ [v]) df.rows
        ((dateRangeM df.rows.length).map Cell.date)).map
      (fun r => r.getD df.colNames.length .na)
      = (dateRangeM df.rows.length).map Cell.date := by
    rw [zipWith_append_getD df.rows _ df.colNames.length hrowlen]
    exact List.take_of_length_le (le_of_eq hvlen)
  have hsnd : (df.idx.zip (List.zipWith (fun r v => r ++ [v]) df.rows
      ((dateRangeM df.rows.length).map Cell.date))).map Prod.snd
      = List.zipWith (fun r v => r ++ [v]) df.rows
          ((dateRangeM df.rows.length).map Cell.date) :=
    List.map_snd_zip _ _ (by rw [hr1len, hidx])
  have hkeys : (df.idx.zip (List.zipWith (fun r v => r ++ [v]) df.rows
        ((dateRangeM df.rows.length).map Cell.date))).map
      (fun p => dateKeyCell (p.2.getD df.colNames.length .na))
      = (List.range df.rows.length).map (fun i => some (monthEnd i)) := by
    have hcomp : (fun p : ℕ × List Cell => dateKeyCell (p.2.getD df.colNames.length .na))
        = (fun r : List Cell => dateKeyCell (r.getD df.colNames.length .na)) ∘ Prod.snd :=
      rfl
    rw [hcomp, ← List.map_map, hsnd]
    have h2 := congrArg (List.map dateKeyCell) hmap
    rw [List.map_map] at h2
    exact h2.trans (by simp [dateRangeM, List.map_map, dateKeyCell])
  have hpw : List.Pairwise (fun a b : ℕ × List Cell =>
      keyLe (dateKeyCell (a.2.getD df.colNames.length .na))
            (dateKeyCell (b.2.getD df.colNames.length .na)) = true)
      (df.idx.zip (List.zipWith (fun r v => r ++ [v]) df.rows
        ((dateRangeM df.rows.length).map Cell.date))) := by
    have h1 : List.Pairwise (fun x y : Option ℕ => keyLe x y = true)
        ((df.idx.zip (List.zipWith (fun r v => r ++ [v]) df.rows
          ((dateRangeM df.rows.length).map Cell.date))).map
          (fun p => dateKeyCell (p.2.getD df.colNames.length .na))) := by
      rw [hkeys, List.pairwise_map]
      exact (List.pairwise_lt_range df.rows.length).imp
        (fun h => by simp [keyLe]; exact (monthEnd_strictMono h).le)
    exact List.pairwise_map.mp h1
  have hsort := sortByDate_sorted_eq
    ⟨df.idx, df.colNames ++ ["Date"],
     List.zipWith (fun r v => r ++ [v]) df.rows
       ((dateRangeM df.rows.length).map Cell.date)⟩ hj hpw
  rw [hdf1, hsort]
  unfold resetIndex getCol
  dsimp only
  rw [hsnd, hj]
  refine ⟨?_, ?_⟩
  · exact congrArg some hmap
  · exact hr1len


/-- C2 (counterexample): on a one-row table with no `Date` column the
synthesized first date is 2020-01-31, not 2020-01-01 as claimed: `freq='M'`
rolls the start forward to the first month-end. -/
theorem clean_date_column_first_date_counterexample :
    getCol (clean_date_column noDateDF) "Date"
      = some [Cell.date (encodeDate 2020 1 31)] ∧
    getCol (clean_date_column noDateDF) "Date"
      ≠ some [Cell.date (encodeDate 2020 1 1)] := by decide

/-- Witness for the amended C2 at a concrete one-row table. -/
theorem clean_date_column_no_date_witness :
    DF.WF noDateDF ∧ "Date" ∉ noDateDF.colNames ∧
    (getCol (clean_date_column noDateDF) "Date"
      = some ((dateRangeM noDateDF.rows.length).map Cell.date) ∧
     (clean_date_column noDateDF).rows.length = noDateDF.rows.length) :=
  ⟨by decide, by decide, clean_date_column_no_date noDateDF (by decide) (by decide)⟩

theorem sortByDate_spec (df1 : DF) {j : ℕ}
    (hj : idxOf? "Date" df1.colNames = some j)
    (hlen : df1.rows.length ≤ df1.idx.length) :
    (sortByDate df1).colNames = df1.colNames ∧
    (sortByDate df1).rows.Perm df1.rows ∧
    List.Pairwise (fun r1 r2 : List Cell =>
      keyLe (dateKeyCell (r1.getD j .na)) (dateKeyCell (r2.getD j .na)) = true)
      (sortByDate df1).rows := by
  have hperm := List.perm_insertionSort
    (fun a b : ℕ × List Cell =>
      keyLe (dateKeyCell (a.2.getD j .na)) (dateKeyCell (b.2.getD j .na)) = true)
    (df1.idx.zip df1.rows)
  haveI hTot : IsTotal (ℕ × List Cell)
      (fun a b => keyLe (dateKeyCell (a.2.getD j .na)) (dateKeyCell (b.2.getD j .na)) = true) :=
    ⟨fun a b => by
      have := keyLe_total (dateKeyCell (a.2.getD j .na)) (dateKeyCell (b.2.getD j .na))
      rcases Bool.or_eq_true_iff.mp this with h | h
      · exact Or.inl h
      · exact Or.inr h⟩
  haveI hTrans : IsTrans (ℕ × List Cell)
      (fun a b => keyLe (dateKeyCell (a.2.getD j .na)) (dateKeyCell (b.2.getD j .na)) = true) :=
    ⟨fun a b c hab hbc => keyLe_trans _ _ _ hab hbc⟩
  have hs := List.sorted_insertionSort
    (fun a b : ℕ × List Cell =>
      keyLe (dateKeyCell (a.2.getD j .na)) (dateKeyCell (b.2.getD j .na)) = true)
    (df1.idx.zip df1.rows)
  unfold sortByDate
  rw [hj]
  dsimp only
  refine ⟨rfl, ?_, ?_⟩
  · have h2 := hperm.map Prod.snd
    rw [List.map_snd_zip _ _ hlen] at h2
    exact h2
  · exact List.Pairwise.map Prod.snd (fun a b hab => hab) hs

theorem clean_date_tail (df1 : DF) {j : ℕ}
    (hj : idxOf? "Date" df1.colNames = some j)
    (hlen : df1.rows.length ≤ df1.idx.length)
    (hdates : ∀ r ∈ df1.rows, (dateKeyCell (r.getD j .na)).isSome) :
    ∃ cells, getCol (resetIndex (sortByDate df1)) "Date" = some cells ∧
      (∀ c ∈ cells, (dateKeyCell c).isSome) ∧
      List.Pairwise (fun a b : ℕ => a ≤ b) (cells.filterMap dateKeyCell) ∧
      (resetIndex (sortByDate df1)).idx
        = List.range (resetIndex (sortByDate df1)).rows.length := by
  obtain ⟨hnames, hperm, hpw⟩ := sortByDate_spec df1 hj hlen
  refine ⟨(sortByDate df1).rows.map (fun r => r.getD j .na), ?_, ?_, ?_, rfl⟩
  · unfold resetIndex getCol
    dsimp only
    rw [hnames, hj]
    rfl
  · intro c hc
    obtain ⟨r, hr, rfl⟩ := List.mem_map.mp hc
    exact hdates r (hperm.mem_iff.mp hr)
  · rw [List.pairwise_filterMap]
    refine List.Pairwise.map _ (fun a b hab => ?_) hpw
    intro x hx y hy
    rw [Option.mem_def] at hx hy
    rw [hx, hy] at hab
    simpa [keyLe] using hab

/-- C1: after the Date Normalizer, every row has a valid (non-missing) date,
the dates are non-decreasing in row order, and the row index is renumbered
contiguously from 0. -/
theorem clean_date_column_invariants (df : DF) (hwf : df.WF) :
    ∃ cells, getCol (clean_date_column df) "Date" = some cells ∧
      (∀ c ∈ cells, (dateKeyCell c).isSome) ∧
      List.Pairwise (fun a b : ℕ => a ≤ b) (cells.filterMap dateKeyCell) ∧
      (clean_date_column df).idx = List.range (clean_date_column df).rows.length := by
  obtain ⟨hidx, hrowlen⟩ := hwf
  by_cases hnd : "Date" ∈ df.colNames
  · -- the table has a Date column: coerce, maybe drop, then sort
    obtain ⟨j, hj⟩ := Option.isSome_iff_exists.mp (idxOf?_isSome_iff.mpr hnd)
    have hjlt : j < df.colNames.length := idxOf?_lt_length hj
    have hdfc : mapCol df "Date" toDatetimeCoerce
        = ⟨df.idx, df.colNames,
           df.rows.map (fun r => r.set j (toDatetimeCoerce (r.getD j .na)))⟩ := by
      unfold mapCol
      rw [hj]
    have hcells : (mapCol df "Date" toDatetimeCoerce).rows.map (fun r => r.getD j .na)
        = df.rows.map (fun r => toDatetimeCoerce (r.getD j .na)) := by
      rw [hdfc, List.map_map]
      refine List.map_congr_left (fun r hr => ?_)
      have hrl : j < r.length := by rw [hrowlen r hr]; exact hjlt
      simp [List.getD_eq_getElem?_getD, List.getElem?_set_self hrl]
    by_cases hc : countInvalidDates (mapCol df "Date" toDatetimeCoerce) > 0
    · -- rows with NaT are dropped
      have hstep : clean_date_column df
          = resetIndex (sortByDate (dropnaDate (mapCol df "Date" toDatetimeCoerce))) := by
        unfold clean_date_column
        rw [if_neg (not_not_intro hnd), if_pos hc]
      have hdrop : dropnaDate (mapCol df "Date" toDatetimeCoerce)
          = ⟨(((mapCol df "Date" toDatetimeCoerce).idx.zip
                (mapCol df "Date" toDatetimeCoerce).rows).filter
              (fun p => (dateKeyCell (p.2.getD j .na)).isSome)).map Prod.fst,
             df.colNames,
             (((mapCol df "Date" toDatetimeCoerce).idx.zip
                (mapCol df "Date" toDatetimeCoerce).rows).filter
              (fun p => (dateKeyCell (p.2.getD j .na)).isSome)).map Prod.snd⟩ := by
        conv_lhs => rw [hdfc]
        unfold dropnaDate
        rw [show idxOf? "Date" (DF.mk df.idx df.colNames
          (df.rows.map (fun r => r.set j (toDatetimeCoerce (r.getD j .na))))).colNames
            = some j from hj]
        conv_rhs => rw [hdfc]
      rw [hstep]
      apply clean_date_tail
      · rw [hdrop]
        exact hj
      · rw [hdrop]
        simp
      · rw [hdrop]
        intro r hr
        simp only at hr
        obtain ⟨p, hp, rfl⟩ := List.mem_map.mp hr
        exact (List.mem_filter.mp hp).2
    · -- no invalid dates: every coerced cell is already a valid date
      have hstep : clean_date_column df
          = resetIndex (sortByDate (mapCol df "Date" toDatetimeCoerce)) := by
        unfold clean_date_column
        rw [if_neg (not_not_intro hnd), if_neg hc]
      have hgc : getCol (mapCol df "Date" toDatetimeCoerce) "Date"
          = some ((mapCol df "Date" toDatetimeCoerce).rows.map (fun r => r.getD j .na)) := by
        unfold getCol
        rw [show (mapCol df "Date" toDatetimeCoerce).colNames = df.colNames from
          by rw [hdfc], hj]
        rfl
      have hall : ∀ r ∈ (mapCol df "Date" toDatetimeCoerce).rows,
          (dateKeyCell (r.getD j .na)).isSome := by
        have h0 : countInvalidDates (mapCol df "Date" toDatetimeCoerce) = 0 := by omega
        unfold countInvalidDates at h0
        rw [hgc] at h0
        simp only [Option.getD_some] at h0
        intro r hr
        have := (List.countP_eq_zero.mp h0) (r.getD j .na)
          (List.mem_map.mpr ⟨r, hr, rfl⟩)
        rw [Option.isSome_iff_ne_none]
        simpa using this
      rw [hstep]
      apply clean_date_tail
      · rw [hdfc]; exact hj
      · rw [hdfc]; simp [hidx]
      · exact hall
  · -- no Date column: a fresh monthly date column is synthesized
    have hnone : idxOf? "Date" df.colNames = none := idxOf?_eq_none_iff.mpr hnd
    have hvlen : ((dateRangeM df.rows.length).map Cell.date).length = df.rows.length := by
      simp [dateRangeM]
    have hstep : clean_date_column df
        = resetIndex (sortByDate ⟨df.idx, df.colNames ++ ["Date"],
            List.zipWith (fun r v => r ++ [v]) df.rows
              ((dateRangeM df.rows.length).map Cell.date)⟩) := by
      unfold clean_date_column setCol
      rw [if_pos hnd, hnone]
    have hmap : (List.zipWith (fun r v => r ++ [v]) df.rows
          ((dateRangeM df.rows.length).map Cell.date)).map
        (fun r => r.getD df.colNames.length .na)
        = (dateRangeM df.rows.length).map Cell.date := by
      rw [zipWith_append_getD df.rows _ df.colNames.length hrowlen]
      exact List.take_of_length_le (le_of_eq hvlen)
    rw [hstep]
    apply clean_date_tail
    · exact idxOf?_append_self hnd
    · simp [List.length_zipWith, hvlen, hidx]
    · intro r hr
      have hmem : r.getD df.colNames.length .na ∈ (dateRangeM df.rows.length).map Cell.date := by
        rw [← hmap]
        exact List.mem_map.mpr ⟨r, hr, rfl⟩
      obtain ⟨d, -, hd⟩ := List.mem_map.mp hmem
      rw [← hd]
      simp [dateKeyCell]


/-- Witness for C1 at a table with one unparseable date among three rows. -/
theorem clean_date_column_invariants_witness :
    DF.WF mixedDateDF ∧
    (∃ cells, getCol (clean_date_column mixedDateDF) "Date" = some cells ∧
      (∀ c ∈ cells, (dateKeyCell c).isSome) ∧
      List.Pairwise (fun a b : ℕ => a ≤ b) (cells.filterMap dateKeyCell) ∧
      (clean_date_column mixedDateDF).idx
        = List.range (clean_date_column mixedDateDF).rows.length) :=
  ⟨by decide, clean_date_column_invariants mixedDateDF (by decide)⟩

/-! ## Consistency Validator lemmas (C3, C10) -/

theorem cellsQ?_eq_some {cells : List Cell} {qs : List ℚ}
    (h : cellsQ? cells = some qs) : cells = qs.map Cell.num := by
  induction cells generalizing qs with
  | nil =>
    have h0 : cellsQ? [] = some [] := rfl
    rw [h0, Option.some.injEq] at h
    rw [← h]
    rfl
  | cons c cs ih =>
    cases c with
    | num q =>
      simp only [cellsQ?] at h
      cases h' : cellsQ? cs with
      | none => rw [h'] at h; simp at h
      | some qs' =>
        rw [h'] at h
        have h2 : q :: qs' = qs := by simpa using h
        rw [← h2, List.map_cons, ← ih h']
    | date d =>
      have h0 : cellsQ? (Cell.date d :: cs) = none := rfl
      rw [h0] at h
      cases h
    | raw a b =>
      have h0 : cellsQ? (Cell.raw a b :: cs) = none := rfl
      rw [h0] at h
      cases h
    | na =>
      have h0 : cellsQ? (Cell.na :: cs) = none := rfl
      rw [h0] at h
      cases h

theorem getColQ_eq_some {df : DF} {name : String} {qs : List ℚ}
    (h : getColQ df name = some qs) : getCol df name = some (qs.map Cell.num) := by
  unfold getColQ at h
  cases hg : getCol df name with
  | none => rw [hg] at h; simp at h
  | some cells =>
    rw [hg] at h
    have h2 : cellsQ? cells = some qs := h
    rw [cellsQ?_eq_some h2]

theorem zipWith_cAdd_num (as bs : List ℚ) :
    List.zipWith cAdd (as.map Cell.num) (bs.map Cell.num)
      = (List.zipWith (fun a b => a + b) as bs).map Cell.num := by
  induction as generalizing bs with
  | nil => simp
  | cons a tl ih => cases bs <;> simp [cAdd, ih]

theorem zipWith_cSubAbs_num (as bs : List ℚ) :
    List.zipWith (fun a b => cAbs (cSub a b)) (as.map Cell.num) (bs.map Cell.num)
      = (List.zipWith (fun a b => |a - b|) as bs).map Cell.num := by
  induction as generalizing bs with
  | nil => simp
  | cons a tl ih => cases bs <;> simp [cSub, cAbs, ih, List.map_zipWith]

theorem map_cMulAbs_num (k : ℚ) (as : List ℚ) :
    (as.map Cell.num).map (fun a => cMulQ k (cAbs a))
      = (as.map (fun a => k * |a|)).map Cell.num := by
  induction as with
  | nil => simp
  | cons a tl ih => simp [cAbs, cMulQ, ih]

theorem zipWith_cGt_num (as bs : List ℚ) :
    List.zipWith cGt (as.map Cell.num) (bs.map Cell.num)
      = List.zipWith (fun a b => decide (a > b)) as bs := by
  induction as generalizing bs with
  | nil => simp
  | cons a tl ih => cases bs <;> simp [cGt, ih]

theorem zipWith_gt_tolerance (g S : List ℚ) :
    List.zipWith (fun a b => decide (a > b))
      (List.zipWith (fun a b => |a - b|) g S)
      (g.map (fun a => (0.05 : ℚ) * |a|))
    = List.zipWith (fun gq s => decide (|gq - s| > 0.05 * |gq|)) g S := by
  induction g generalizing S with
  | nil => simp
  | cons a tl ih => cases S <;> simp [ih]

theorem negIssueEntry_shape {df : DF} {c : String} {x : Issue}
    (h : negIssueEntry df c = some x) :
    ∃ k, x = Issue.negativeValues c k ∧ 0 < k := by
  unfold negIssueEntry at h
  cases hk : negCount df c with
  | none => rw [hk] at h; cases h
  | some k =>
    rw [hk] at h
    dsimp only at h
    by_cases hpos : k > 0
    · rw [if_pos hpos] at h
      exact ⟨k, by simpa using h.symm, hpos⟩
    · rw [if_neg hpos] at h
      cases h

theorem filter_negIssues_not_mem (df : DF) (col : String) (names : List String)
    (h : col ∉ names) :
    (names.filterMap (negIssueEntry df)).filter (isNegIssueFor col) = [] := by
  rw [List.filter_eq_nil_iff]
  intro x hx
  obtain ⟨c, hc, hcx⟩ := List.mem_filterMap.mp hx
  obtain ⟨k, rfl, -⟩ := negIssueEntry_shape hcx
  simp only [isNegIssueFor, beq_iff_eq]
  exact fun hcc => h (hcc ▸ hc)

theorem filter_negIssues_mem (df : DF) (col : String) (names : List String)
    (hmem : col ∈ names) (hnodup : names.Nodup) :
    (names.filterMap (negIssueEntry df)).filter (isNegIssueFor col)
      = (negIssueEntry df col).toList := by
  induction names with
  | nil => cases hmem
  | cons c cs ih =>
    rcases List.mem_cons.mp hmem with rfl | hmem'
    · have hnotin : col ∉ cs := (List.nodup_cons.mp hnodup).1
      cases hE : negIssueEntry df col with
      | none =>
        simp only [List.filterMap_cons, hE]
        rw [filter_negIssues_not_mem df col cs hnotin]
        rfl
      | some e =>
        obtain ⟨k, rfl, -⟩ := negIssueEntry_shape hE
        simp only [List.filterMap_cons, hE, List.filter_cons]
        rw [show isNegIssueFor col (Issue.negativeValues col k) = true from
          by simp [isNegIssueFor]]
        rw [filter_negIssues_not_mem df col cs hnotin]
        rfl
    · have hne : c ≠ col := fun h' =>
        (List.nodup_cons.mp hnodup).1 (h' ▸ hmem')
      have hih := ih hmem' (List.nodup_cons.mp hnodup).2
      cases hE : negIssueEntry df c with
      | none =>
        simp only [List.filterMap_cons, hE]
        exact hih
      | some e =>
        obtain ⟨k, rfl, -⟩ := negIssueEntry_shape hE
        simp only [List.filterMap_cons, hE, List.filter_cons]
        rw [show isNegIssueFor col (Issue.negativeValues c k) = false from
          by simp [isNegIssueFor, hne]]
        simpa using hih

theorem validate_filter_gdp (df : DF) :
    (validate_economic_relationships df).2.filter isGdpIssue = gdpIssueList df := by
  unfold validate_economic_relationships
  dsimp only
  rw [List.filter_append, List.filter_append]
  have h1 : (gdpIssueList df).filter isGdpIssue = gdpIssueList df := by
    unfold gdpIssueList
    cases gdpIdentityFlags df with
    | none => rfl
    | some flags => split <;> simp [isGdpIssue]
  have h2 : (fiscalIssueList df).filter isGdpIssue = [] := by
    unfold fiscalIssueList
    cases fiscalFlags df with
    | none => rfl
    | some flags => split <;> simp [isGdpIssue]
  have h3 : (positiveColumns.filterMap (negIssueEntry df)).filter isGdpIssue = [] := by
    rw [List.filter_eq_nil_iff]
    intro x hx
    obtain ⟨c, hc, hcx⟩ := List.mem_filterMap.mp hx
    obtain ⟨k, rfl, -⟩ := negIssueEntry_shape hcx
    simp [isGdpIssue]
  rw [h1, h2, h3]
  simp

theorem validate_filter_neg (df : DF) (col : String) (hmem : col ∈ positiveColumns) :
    (validate_economic_relationships df).2.filter (isNegIssueFor col)
      = (negIssueEntry df col).toList := by
  unfold validate_economic_relationships
  dsimp only
  rw [List.filter_append, List.filter_append,
    filter_negIssues_mem df col positiveColumns hmem (by decide)]
  have h1 : (gdpIssueList df).filter (isNegIssueFor col) = [] := by
    unfold gdpIssueList
    cases gdpIdentityFlags df with
    | none => rfl
    | some flags => split <;> simp [isNegIssueFor]
  have h2 : (fiscalIssueList df).filter (isNegIssueFor col) = [] := by
    unfold fiscalIssueList
    cases fiscalFlags df with
    | none => rfl
    | some flags => split <;> simp [isNegIssueFor]
  rw [h1, h2]
  simp

/-- C3: with GDP, Consumption, Investment, Government_Spending and
Net_Exports present and all-numeric, the per-row inconsistency flags are
exactly `|GDP - (C + I + G + NX)| > 0.05 * |GDP|`, and the validator's issue
list carries exactly one GDP-identity issue, reporting the flagged-row
count, precisely when that count is nonzero. -/
theorem validate_gdp_identity_spec (df : DF) (g c i gs nx : List ℚ)
    (hg : getColQ df "GDP" = some g) (hc : getColQ df "Consumption" = some c)
    (hi : getColQ df "Investment" = some i)
    (hgs : getColQ df "Government_Spending" = some gs)
    (hnx : getColQ df "Net_Exports" = some nx) :
    gdpIdentityFlags df
      = some (List.zipWith (fun gq s => decide (|gq - s| > 0.05 * |gq|)) g
          (List.zipWith (fun a b => a + b)
            (List.zipWith (fun a b => a + b)
              (List.zipWith (fun a b => a + b) c i) gs) nx)) ∧
    (validate_economic_relationships df).2.filter isGdpIssue
      = (if ((gdpIdentityFlags df).getD []).countP id = 0 then []
         else [Issue.gdpIdentity (((gdpIdentityFlags df).getD []).countP id)]) := by
  have hflags : gdpIdentityFlags df
      = some (List.zipWith (fun gq s => decide (|gq - s| > 0.05 * |gq|)) g
          (List.zipWith (fun a b => a + b)
            (List.zipWith (fun a b => a + b)
              (List.zipWith (fun a b => a + b) c i) gs) nx)) := by
    unfold gdpIdentityFlags
    rw [getColQ_eq_some hg, getColQ_eq_some hc, getColQ_eq_some hi,
        getColQ_eq_some hgs, getColQ_eq_some hnx]
    dsimp only
    rw [zipWith_cAdd_num, zipWith_cAdd_num, zipWith_cAdd_num,
        zipWith_cSubAbs_num, map_cMulAbs_num, zipWith_cGt_num, zipWith_gt_tolerance]
  refine ⟨hflags, ?_⟩
  rw [validate_filter_gdp]
  unfold gdpIssueList
  rw [hflags]
  dsimp only [Option.getD_some]
  by_cases hany : (List.zipWith (fun gq s => decide (|gq - s| > 0.05 * |gq|)) g
          (List.zipWith (fun a b => a + b)
            (List.zipWith (fun a b => a + b)
              (List.zipWith (fun a b => a + b) c i) gs) nx)).any id = true
  · rw [if_pos hany]
    have hne : (List.zipWith (fun gq s => decide (|gq - s| > 0.05 * |gq|)) g
          (List.zipWith (fun a b => a + b)
            (List.zipWith (fun a b => a + b)
              (List.zipWith (fun a b => a + b) c i) gs) nx)).countP id ≠ 0 := by
      rw [Ne, List.countP_eq_zero]
      rw [List.any_eq_true] at hany
      obtain ⟨x, hx, hxt⟩ := hany
      exact fun hall => hall x hx hxt
    rw [if_neg hne]
  · rw [if_neg hany]
    have h0 : (List.zipWith (fun gq s => decide (|gq - s| > 0.05 * |gq|)) g
          (List.zipWith (fun a b => a + b)
            (List.zipWith (fun a b => a + b)
              (List.zipWith (fun a b => a + b) c i) gs) nx)).countP id = 0 := by
      rw [List.countP_eq_zero]
      intro a ha hida
      exact hany (List.any_eq_true.mpr ⟨a, ha, hida⟩)
    rw [if_pos h0]

/-- Witness for C3: the spec's scenario-A table, 15 rows with only row 5
violating the 5% tolerance; the validator reports exactly one GDP-identity
issue with count 1. -/
theorem validate_gdp_identity_spec_witness :
    getColQ scenADF "GDP" = some (List.replicate 15 1000) ∧
    getColQ scenADF "Consumption"
      = some ((List.range 15).map (fun i => if i = 5 then (1000 : ℚ) else 800)) ∧
    getColQ scenADF "Investment" = some (List.replicate 15 100) ∧
    getColQ scenADF "Government_Spending" = some (List.replicate 15 100) ∧
    getColQ scenADF "Net_Exports" = some (List.replicate 15 0) ∧
    (validate_economic_relationships scenADF).2.filter isGdpIssue
      = [Issue.gdpIdentity 1] := by
  refine ⟨by decide, by decide, by decide, by decide, by decide, ?_⟩
  have h := validate_gdp_identity_spec scenADF (List.replicate 15 1000)
    ((List.range 15).map (fun i => if i = 5 then (1000 : ℚ) else 800))
    (List.replicate 15 100) (List.replicate 15 100) (List.replicate 15 0)
    (by decide) (by decide) (by decide) (by decide) (by decide)
  rw [h.2]
  with_unfolding_all decide

/-- C10: for a present, numeric sign-constrained column, a missing value is
never counted as negative: the flagged count is the number of non-missing
strictly-negative cells (`cLtZero`), there is exactly one sign issue for the
column precisely when that count is nonzero, and a column that is entirely
missing or non-negative produces no issue. -/
theorem validate_sign_constraint_spec (df : DF) (col : String) (cells : List Cell)
    (hcol : col ∈ positiveColumns) (hget : getCol df col = some cells)
    (hnum : ∀ c ∈ cells, c = Cell.na ∨ ∃ q, c = Cell.num q) :
    (∀ c ∈ cells, c = Cell.na → cLtZero c = false) ∧
    ((validate_economic_relationships df).2.filter (isNegIssueFor col)
      = if cells.countP cLtZero = 0 then []
        else [Issue.negativeValues col (cells.countP cLtZero)]) ∧
    ((∀ c ∈ cells, c = Cell.na ∨ ∃ q, 0 ≤ q ∧ c = Cell.num q) →
      (validate_economic_relationships df).2.filter (isNegIssueFor col) = []) := by
  have hmain : (validate_economic_relationships df).2.filter (isNegIssueFor col)
      = if cells.countP cLtZero = 0 then []
        else [Issue.negativeValues col (cells.countP cLtZero)] := by
    rw [validate_filter_neg df col hcol]
    unfold negIssueEntry negCount
    rw [hget]
    have hnc : Option.map (fun c : List Cell => c.countP cLtZero) (some cells)
        = some (cells.countP cLtZero) := rfl
    rw [hnc]
    dsimp only
    rcases Nat.eq_zero_or_pos (cells.countP cLtZero) with h0 | hpos
    · rw [h0]
      simp
    · rw [if_pos hpos, if_neg (Nat.pos_iff_ne_zero.mp hpos)]
      rfl
  refine ⟨fun c _ hna => by rw [hna]; rfl, hmain, fun hnn => ?_⟩
  rw [hmain, if_pos ?_]
  rw [List.countP_eq_zero]
  intro a ha hlt
  rcases hnn a ha with rfl | ⟨q, hq, rfl⟩
  · cases hlt
  · rw [show cLtZero (Cell.num q) = decide (q < 0) from rfl] at hlt
    rw [decide_eq_true_iff] at hlt
    exact absurd hq (not_le.mpr hlt)


/-- Witness for C10: a GDP column with one NaN and one negative value yields
exactly one sign issue with count 1 (the NaN is not counted). -/
theorem validate_sign_constraint_spec_witness :
    "GDP" ∈ positiveColumns ∧
    getCol negValsDF "GDP" = some [Cell.num 5, Cell.na, Cell.num (-3)] ∧
    (validate_economic_relationships negValsDF).2.filter (isNegIssueFor "GDP")
      = [Issue.negativeValues "GDP" 1] := by
  refine ⟨by decide, by decide, ?_⟩
  have h := validate_sign_constraint_spec negValsDF "GDP"
    [Cell.num 5, Cell.na, Cell.num (-3)] (by decide) (by decide)
    (by
      intro c hc
      fin_cases hc
      · exact Or.inr ⟨5, rfl⟩
      · exact Or.inl rfl
      · exact Or.inr ⟨-3, rfl⟩)
  rw [h.2.1]
  with_unfolding_all decide

/-! ## Numeric Sanitizer lemmas (C7, C9) -/

theorem colVals_const {cc : List Cell} {q : ℚ}
    (h : ∀ c ∈ cc, c = Cell.na ∨ c = Cell.num q) :
    colVals cc = List.replicate (colVals cc).length q := by
  rw [List.eq_replicate_length]
  intro b hb
  obtain ⟨c, hc, hcb⟩ := List.mem_filterMap.mp hb
  rcases h c hc with rfl | rfl
  · cases hcb
  · simpa using hcb.symm

theorem colMean_eq (cc : List Cell) :
    colMean cc = if (colVals cc).length = 0 then none
                 else some ((colVals cc).sum / ((colVals cc).length : ℚ)) := rfl

theorem colVar_eq (cc : List Cell) :
    colVar cc
      = match colMean cc with
        | none => none
        | some m =>
          if (colVals cc).length ≤ 1 then none
          else some (((colVals cc).map (fun x => (x - m) ^ 2)).sum
                      / (((colVals cc).length : ℚ) - 1)) := rfl

/-- C7: on a registered numeric column whose coerced cells are all missing,
or all equal where non-missing, outlier detection (lines 100-107) flags no
cell.  (No division by zero arises either: the mean is formed only over a
nonempty value list and the variance only over one of length at least 2.) -/
theorem outlierFlags_no_flags (df : DF) (col : String) (cells : List Cell)
    (hcol : col ∈ numericColumns) (hget : getCol df col = some cells)
    (hconst : (∀ c ∈ cells.map pdToNumeric, c = Cell.na) ∨
              ∃ q, ∀ c ∈ cells.map pdToNumeric, c = Cell.na ∨ c = Cell.num q) :
    outlierFlags (cells.map pdToNumeric) = List.replicate cells.length false := by
  have hlen : (cells.map pdToNumeric).length = cells.length := List.length_map _ _
  unfold outlierFlags
  by_cases hall : (cells.map pdToNumeric).all cellIsNA
  · rw [if_pos hall, List.map_const', hlen]
  · rw [if_neg hall]
    rcases hconst with hna | ⟨q, hq⟩
    · exact absurd (by
        rw [List.all_eq_true]
        intro c hc
        rw [hna c hc]
        rfl) hall
    · have hvals := colVals_const hq
      cases hk0 : (colVals (cells.map pdToNumeric)).length with
      | zero =>
        have hmean : colMean (cells.map pdToNumeric) = none := by
          rw [colMean_eq, if_pos hk0]
        rw [hmean, List.map_const', hlen]
      | succ k' =>
        have hmean : colMean (cells.map pdToNumeric) = some q := by
          rw [colMean_eq, if_neg (by omega)]
          rw [hvals, hk0, List.sum_replicate, nsmul_eq_mul]
          rw [List.length_replicate]
          exact congrArg some (mul_div_cancel_left₀ q (by positivity))
        cases hk1 : k' with
        | zero =>
          have hvar : colVar (cells.map pdToNumeric) = none := by
            rw [colVar_eq, hmean]
            dsimp only
            rw [if_pos (by omega)]
          rw [hmean, hvar, List.map_const', hlen]
        | succ k'' =>
          have hvar : colVar (cells.map pdToNumeric) = some 0 := by
            rw [colVar_eq, hmean]
            dsimp only
            rw [if_neg (by omega)]
            rw [hvals, hk0, List.map_replicate]
            simp
          rw [hmean, hvar]
          dsimp only
          have hfc : ∀ c ∈ cells.map pdToNumeric, flagCell q 0 c = false := by
            intro c hc
            rcases hq c hc with rfl | rfl
            · rfl
            · show decide ((q - q) ^ 2 > 9 * 0) = false
              simp
          rw [List.map_congr_left hfc, List.map_const', hlen]

/-- Witness for C7: a constant GDP column (two equal values and one NaN)
yields no outlier flags. -/
theorem outlierFlags_no_flags_witness :
    "GDP" ∈ numericColumns ∧
    getCol dfC7 "GDP" = some [Cell.num 7, Cell.num 7, Cell.na] ∧
    outlierFlags ([Cell.num 7, Cell.num 7, Cell.na].map pdToNumeric)
      = List.replicate 3 false := by
  refine ⟨by decide, by decide, ?_⟩
  exact outlierFlags_no_flags dfC7 "GDP" [Cell.num 7, Cell.num 7, Cell.na]
    (by decide) (by decide)
    (Or.inr ⟨7, by
      intro c hc
      fin_cases hc
      · exact Or.inr rfl
      · exact Or.inr rfl
      · exact Or.inl rfl⟩)

theorem set_getD_self (l : List Cell) (j : ℕ) : l.set j (l.getD j .na) = l := by
  induction l generalizing j with
  | nil => simp
  | cons a t ih =>
    cases j with
    | zero => rfl
    | succ n =>
      have hstep : (a :: t).set (n + 1) ((a :: t).getD (n + 1) .na)
          = a :: t.set n (t.getD n .na) := rfl
      rw [hstep, ih]

theorem mapCol_id (df : DF) (col : String)
    (h : ∀ cells, getCol df col = some cells → ∀ c ∈ cells, pdToNumeric c = c) :
    mapCol df col pdToNumeric = df := by
  unfold mapCol
  cases hj : idxOf? col df.colNames with
  | none => rfl
  | some j =>
    have hcells := h (df.rows.map (fun r => r.getD j .na))
      (by unfold getCol; rw [hj]; rfl)
    have hrows : df.rows.map
        (fun r => r.set j (pdToNumeric (r.getD j .na))) = df.rows := by
      have hcongr : ∀ r ∈ df.rows,
          r.set j (pdToNumeric (r.getD j .na)) = r := by
        intro r hr
        rw [hcells (r.getD j .na) (List.mem_map.mpr ⟨r, hr, rfl⟩)]
        exact set_getD_self r j
      calc df.rows.map (fun r => r.set j (pdToNumeric (r.getD j .na)))
          = df.rows.map id := List.map_congr_left hcongr
        _ = df.rows := List.map_id df.rows
    dsimp only
    rw [hrows]

/-- C9: on a table whose registered numeric columns are already coerced
(every cell a float or NaN, so `pd.to_numeric` is the identity on it), the
Numeric Sanitizer returns the table unchanged; in particular applying it
twice equals applying it once. -/
theorem clean_numeric_columns_idempotent (df : DF)
    (hco : ∀ col ∈ numericColumns, ∀ cells, getCol df col = some cells →
       ∀ c ∈ cells, pdToNumeric c = c) :
    clean_numeric_columns df = df ∧
    clean_numeric_columns (clean_numeric_columns df) = clean_numeric_columns df := by
  have h1 : clean_numeric_columns df = df := by
    unfold clean_numeric_columns
    have hgen : ∀ cols : List String,
        (∀ col ∈ cols, ∀ cells, getCol df col = some cells →
           ∀ c ∈ cells, pdToNumeric c = c) →
        cols.foldl (fun d col => mapCol d col pdToNumeric) df = df := by
      intro cols
      induction cols with
      | nil => intro _; rfl
      | cons c cs ih =>
        intro hall
        rw [List.foldl_cons, mapCol_id df c (hall c (by simp))]
        exact ih (fun col hcol => hall col (by simp [hcol]))
    exact hgen numericColumns hco
  exact ⟨h1, by rw [h1]; exact h1⟩

/-- Witness for C9 at a coerced three-row table. -/
theorem clean_numeric_columns_idempotent_witness :
    (∀ col ∈ numericColumns, ∀ cells, getCol negValsDF col = some cells →
       ∀ c ∈ cells, pdToNumeric c = c) ∧
    clean_numeric_columns negValsDF = negValsDF := by
  have hco : ∀ col ∈ numericColumns, ∀ cells, getCol negValsDF col = some cells →
      ∀ c ∈ cells, pdToNumeric c = c := by
    intro col hcol cells hcells
    fin_cases hcol
    · exact absurd (show (none : Option (List Cell)) = some cells from hcells) (by simp)
    · have h1 : cells = [Cell.num 5, Cell.na, Cell.num (-3)] := by
        have h2 := (show some [Cell.num 5, Cell.na, Cell.num (-3)] = some cells from hcells)
        simpa using h2.symm
      subst h1
      intro c hc
      fin_cases hc <;> rfl
    · exact absurd (show (none : Option (List Cell)) = some cells from hcells) (by simp)
    · exact absurd (show (none : Option (List Cell)) = some cells from hcells) (by simp)
    · exact absurd (show (none : Option (List Cell)) = some cells from hcells) (by simp)
    · exact absurd (show (none : Option (List Cell)) = some cells from hcells) (by simp)
    · exact absurd (show (none : Option (List Cell)) = some cells from hcells) (by simp)
    · exact absurd (show (none : Option (List Cell)) = some cells from hcells) (by simp)
    · exact absurd (show (none : Option (List Cell)) = some cells from hcells) (by simp)
  exact ⟨hco, (clean_numeric_columns_idempotent negValsDF hco).1⟩

/-! ## Column-update algebra (for the Derived-Indicator Calculator) -/

theorem idxOf?_getD {name : String} {l : List String} {j : ℕ}
    (h : idxOf? name l = some j) : l.getD j "" = name := by
  induction l generalizing j with
  | nil => cases h
  | cons c cs ih =>
    by_cases hc : c = name
    · simp only [idxOf?, if_pos hc] at h
      have : j = 0 := by simpa using h.symm
      subst this
      simpa using hc
    · simp only [idxOf?, if_neg hc] at h
      cases h' : idxOf? name cs with
      | none => rw [h'] at h; cases h
      | some k =>
        rw [h'] at h
        have hk : k + 1 = j := by simpa using h
        subst hk
        simpa using ih h'

theorem idxOf?_append_left {name : String} {l l' : List String}
    (h : name ∈ l) : idxOf? name (l ++ l') = idxOf? name l := by
  induction l with
  | nil => cases h
  | cons c cs ih =>
    by_cases hc : c = name
    · simp [idxOf?, hc]
    · rcases List.mem_cons.mp h with rfl | hm
      · exact absurd rfl hc
      · simp [idxOf?, hc, ih hm]

theorem getCol_length {df : DF} {name : String} {cells : List Cell}
    (h : getCol df name = some cells) : cells.length = df.rows.length := by
  unfold getCol at h
  cases hj : idxOf? name df.colNames with
  | none => rw [hj] at h; cases h
  | some j =>
    rw [hj] at h
    have h2 : df.rows.map (fun r => r.getD j .na) = cells := by simpa using h
    rw [← h2, List.length_map]

theorem zipWith_set_getD_same (rows : List (List Cell)) (vals : List Cell) (j : ℕ)
    (h : ∀ r ∈ rows, j < r.length) :
    (List.zipWith (fun r v => r.set j v) rows vals).map (fun r => r.getD j .na)
      = vals.take rows.length := by
  induction rows generalizing vals with
  | nil => simp
  | cons r rs ih =>
    cases vals with
    | nil => simp
    | cons v vs =>
      have hr : j < r.length := h r (by simp)
      simp only [List.zipWith_cons_cons, List.map_cons, List.length_cons,
        List.take_succ_cons]
      rw [ih vs (fun r' hr' => h r' (by simp [hr']))]
      rw [List.getD_eq_getElem?_getD, List.getElem?_set_self (by simpa using hr)]
      rfl

theorem zipWith_set_getD_other (rows : List (List Cell)) (vals : List Cell)
    (j j' : ℕ) (hne : j' ≠ j) :
    (List.zipWith (fun r v => r.set j v) rows vals).map (fun r => r.getD j' .na)
      = (rows.take vals.length).map (fun r => r.getD j' .na) := by
  induction rows generalizing vals with
  | nil => simp
  | cons r rs ih =>
    cases vals with
    | nil => simp
    | cons v vs =>
      simp only [List.zipWith_cons_cons, List.map_cons, List.length_cons,
        List.take_succ_cons]
      rw [ih vs]
      rw [List.getD_eq_getElem?_getD, List.getElem?_set,
        if_neg (fun hh => hne hh.symm), ← List.getD_eq_getElem?_getD]

theorem zipWith_append_getD_other (rows : List (List Cell)) (vals : List Cell)
    (j' : ℕ) (h : ∀ r ∈ rows, j' < r.length) :
    (List.zipWith (fun r v => r ++ [v]) rows vals).map (fun r => r.getD j' .na)
      = (rows.take vals.length).map (fun r => r.getD j' .na) := by
  induction rows generalizing vals with
  | nil => simp
  | cons r rs ih =>
    cases vals with
    | nil => simp
    | cons v vs =>
      have hr : j' < r.length := h r (by simp)
      simp only [List.zipWith_cons_cons, List.map_cons, List.length_cons,
        List.take_succ_cons]
      rw [ih vs (fun r' hr' => h r' (by simp [hr']))]
      rw [List.getD_eq_getElem?_getD, List.getElem?_append, if_pos hr,
        ← List.getD_eq_getElem?_getD]

theorem getCol_setCol_same (df : DF) (name : String) (vals : List Cell)
    (hrect : Rect df) (hv : vals.length = df.rows.length) :
    getCol (setCol df name vals) name = some vals := by
  unfold setCol
  cases hj : idxOf? name df.colNames with
  | some j =>
    have hjlt : j < df.colNames.length := idxOf?_lt_length hj
    unfold getCol
    dsimp only
    rw [hj]
    simp only [Option.map_some']
    rw [zipWith_set_getD_same df.rows vals j
      (fun r hr => by rw [hrect r hr]; exact hjlt)]
    rw [List.take_of_length_le (le_of_eq hv)]
  | none =>
    have hnm : name ∉ df.colNames := idxOf?_eq_none_iff.mp hj
    unfold getCol
    dsimp only
    rw [idxOf?_append_self hnm]
    simp only [Option.map_some']
    rw [zipWith_append_getD df.rows vals df.colNames.length hrect]
    rw [List.take_of_length_le (le_of_eq hv)]

theorem getCol_setCol_other (df : DF) (name other : String) (vals : List Cell)
    (hne : other ≠ name) (hrect : Rect df) (hv : df.rows.length ≤ vals.length) :
    getCol (setCol df name vals) other = getCol df other := by
  have htake : df.rows.take vals.length = df.rows :=
    List.take_of_length_le hv
  unfold setCol
  cases hj : idxOf? name df.colNames with
  | some j =>
    unfold getCol
    dsimp only
    cases hj' : idxOf? other df.colNames with
    | none => rfl
    | some j' =>
      have hjj : j' ≠ j := by
        intro hEq
        apply hne
        rw [← idxOf?_getD hj', hEq, idxOf?_getD hj]
      simp only [Option.map_some', Option.some.injEq]
      rw [zipWith_set_getD_other df.rows vals j j' hjj, htake]
  | none =>
    unfold getCol
    dsimp only
    by_cases hmem : other ∈ df.colNames
    · rw [idxOf?_append_left hmem]
      cases hj' : idxOf? other df.colNames with
      | none => exact absurd hmem (idxOf?_eq_none_iff.mp hj')
      | some j' =>
        have hjlt : j' < df.colNames.length := idxOf?_lt_length hj'
        simp only [Option.map_some', Option.some.injEq]
        rw [zipWith_append_getD_other df.rows vals j'
          (fun r hr => by rw [hrect r hr]; exact hjlt), htake]
    · have h1 : idxOf? other (df.colNames ++ [name]) = none := by
        rw [idxOf?_eq_none_iff]
        intro hmm
        rcases List.mem_append.mp hmm with hA | hB
        · exact hmem hA
        · exact hne (by simpa using hB)
      rw [h1, idxOf?_eq_none_iff.mpr hmem]
      rfl

theorem mem_setCol_colNames (df : DF) (name other : String) (vals : List Cell) :
    other ∈ (setCol df name vals).colNames ↔ other ∈ df.colNames ∨ other = name := by
  unfold setCol
  cases hj : idxOf? name df.colNames with
  | some j =>
    have hnm : name ∈ df.colNames :=
      idxOf?_isSome_iff.mp (by rw [hj]; rfl)
    dsimp only
    constructor
    · exact Or.inl
    · rintro (h | rfl)
      · exact h
      · exact hnm
  | none =>
    dsimp only
    simp [List.mem_append]

theorem setCol_rows_length (df : DF) (name : String) (vals : List Cell)
    (hv : df.rows.length ≤ vals.length) :
    (setCol df name vals).rows.length = df.rows.length := by
  unfold setCol
  cases idxOf? name df.colNames <;> simp [List.length_zipWith] <;> omega

theorem zipWith_set_length (rows : List (List Cell)) (vals : List Cell) (j n : ℕ)
    (h : ∀ r ∈ rows, r.length = n) :
    ∀ r' ∈ List.zipWith (fun r v => r.set j v) rows vals, r'.length = n := by
  induction rows generalizing vals with
  | nil => simp
  | cons r rs ih =>
    cases vals with
    | nil => simp
    | cons v vs =>
      intro r' hr'
      rcases List.mem_cons.mp hr' with rfl | hm
      · rw [List.length_set]
        exact h r (by simp)
      · exact ih vs (fun x hx => h x (by simp [hx])) r' hm

theorem zipWith_append_length (rows : List (List Cell)) (vals : List Cell) (n : ℕ)
    (h : ∀ r ∈ rows, r.length = n) :
    ∀ r' ∈ List.zipWith (fun r v => r ++ [v]) rows vals, r'.length = n + 1 := by
  induction rows generalizing vals with
  | nil => simp
  | cons r rs ih =>
    cases vals with
    | nil => simp
    | cons v vs =>
      intro r' hr'
      rcases List.mem_cons.mp hr' with rfl | hm
      · rw [List.length_append, h r (by simp)]
        rfl
      · exact ih vs (fun x hx => h x (by simp [hx])) r' hm

theorem setCol_rect (df : DF) (name : String) (vals : List Cell)
    (hrect : Rect df) : Rect (setCol df name vals) := by
  unfold setCol
  cases hj : idxOf? name df.colNames with
  | some j =>
    intro r hr
    exact zipWith_set_length df.rows vals j df.colNames.length hrect r hr
  | none =>
    intro r hr
    dsimp only at hr ⊢
    rw [List.length_append, List.length_cons, List.length_nil]
    exact zipWith_append_length df.rows vals df.colNames.length hrect r hr

theorem getCol_isSome_mem {df : DF} {name : String} {cells : List Cell}
    (h : getCol df name = some cells) : name ∈ df.colNames := by
  rw [← idxOf?_isSome_iff]
  unfold getCol at h
  cases hj : idxOf? name df.colNames with
  | none => rw [hj] at h; cases h
  | some j => rfl

theorem ffillGo_length (last : Option Cell) (l : List Cell) :
    (ffillGo last l).length = l.length := by
  induction l generalizing last with
  | nil => rfl
  | cons c cs ih => cases c <;> simp [ffillGo, ih]

theorem ffillCells_length (l : List Cell) : (ffillCells l).length = l.length :=
  ffillGo_length none l

theorem shiftCells_length (k : ℕ) (l : List Cell) :
    (shiftCells k l).length = l.length := by
  simp only [shiftCells, List.length_take, List.length_append, List.length_replicate]
  omega

theorem pctChange12_length (l : List Cell) : (pctChange12 l).length = l.length := by
  unfold pctChange12
  rw [List.length_zipWith, shiftCells_length, ffillCells_length]
  simp

theorem cumprodGo_length (acc : ℚ) (l : List Cell) :
    (cumprodGo acc l).length = l.length := by
  induction l generalizing acc with
  | nil => rfl
  | cons c cs ih => cases c <;> simp [cumprodGo, ih]

theorem cumprodCells_length (l : List Cell) : (cumprodCells l).length = l.length :=
  cumprodGo_length 1 l

/-- The facts a conditional column-set step of `add_derived_variables`
preserves: rectangularity, row count, the other columns, and column
membership. -/
theorem step_facts (df : DF) (P : Prop) [Decidable P] (nm : String)
    (vals : List Cell) (hrect : Rect df)
    (hv : P → vals.length = df.rows.length) :
    Rect (if P then setCol df nm vals else df) ∧
    (if P then setCol df nm vals else df).rows.length = df.rows.length ∧
    (∀ other, other ≠ nm →
      getCol (if P then setCol df nm vals else df) other = getCol df other) ∧
    (∀ other, other ∈ df.colNames →
      other ∈ (if P then setCol df nm vals else df).colNames) := by
  by_cases hP : P
  · simp only [if_pos hP]
    refine ⟨setCol_rect df nm vals hrect,
      setCol_rows_length df nm vals (le_of_eq (hv hP).symm),
      fun o ho => getCol_setCol_other df nm o vals ho hrect (le_of_eq (hv hP).symm),
      fun o ho => (mem_setCol_colNames df nm o vals).mpr (Or.inl ho)⟩
  · rw [if_neg hP]
    exact ⟨hrect, rfl, fun _ _ => rfl, fun _ h => h⟩

theorem cumprodGo_num (acc : ℚ) (qs : List ℚ) :
    cumprodGo acc (qs.map Cell.num)
      = (List.range qs.length).map
          (fun k => Cell.num (acc * ((qs.take (k + 1)).prod))) := by
  induction qs generalizing acc with
  | nil => rfl
  | cons q t ih =>
    simp only [List.map_cons, cumprodGo, List.length_cons, List.range_succ_eq_map,
      List.map_map]
    congr 1
    · simp
    · rw [ih (acc * q)]
      refine List.map_congr_left (fun k _ => ?_)
      simp [List.take_succ_cons, mul_assoc]

theorem getCol_isSome_of_mem {df : DF} {name : String} (h : name ∈ df.colNames) :
    ∃ cells, getCol df name = some cells := by
  obtain ⟨j, hj⟩ := Option.isSome_iff_exists.mp (idxOf?_isSome_iff.mpr h)
  exact ⟨df.rows.map (fun r => r.getD j .na), by unfold getCol; rw [hj]; rfl⟩

theorem zip_cols_length (df : DF) (a b : String) (f : Cell → Cell → Cell)
    (ha : a ∈ df.colNames) (hb : b ∈ df.colNames) :
    (List.zipWith f ((getCol df a).getD []) ((getCol df b).getD [])).length
      = df.rows.length := by
  obtain ⟨ca, hca⟩ := getCol_isSome_of_mem ha
  obtain ⟨cb, hcb⟩ := getCol_isSome_of_mem hb
  rw [hca, hcb]
  simp [List.length_zipWith, getCol_length hca, getCol_length hcb]

theorem addGdpGrowth_facts (df : DF) (hrect : Rect df) :
    Rect (addGdpGrowth df) ∧ (addGdpGrowth df).rows.length = df.rows.length ∧
    (∀ other, other ≠ "GDP_Growth_Rate" →
      getCol (addGdpGrowth df) other = getCol df other) ∧
    (∀ other, other ∈ df.colNames → other ∈ (addGdpGrowth df).colNames) := by
  unfold addGdpGrowth
  refine step_facts df _ "GDP_Growth_Rate" _ hrect (fun hP => ?_)
  obtain ⟨cells, hc⟩ := getCol_isSome_of_mem hP.1
  rw [hc]
  simp [pctChange12_length, getCol_length hc]

theorem addFiscalBalance_facts (df : DF) (hrect : Rect df) :
    Rect (addFiscalBalance df) ∧ (addFiscalBalance df).rows.length = df.rows.length ∧
    (∀ other, other ≠ "Fiscal_Balance_GDP_Ratio" →
      getCol (addFiscalBalance df) other = getCol df other) ∧
    (∀ other, other ∈ df.colNames → other ∈ (addFiscalBalance df).colNames) := by
  unfold addFiscalBalance
  exact step_facts df _ "Fiscal_Balance_GDP_Ratio" _ hrect
    (fun hP => zip_cols_length df _ _ _ hP.1 hP.2)

theorem addGovSpending_facts (df : DF) (hrect : Rect df) :
    Rect (addGovSpending df) ∧ (addGovSpending df).rows.length = df.rows.length ∧
    (∀ other, other ≠ "Gov_Spending_GDP_Ratio" →
      getCol (addGovSpending df) other = getCol df other) ∧
    (∀ other, other ∈ df.colNames → other ∈ (addGovSpending df).colNames) := by
  unfold addGovSpending
  exact step_facts df _ "Gov_Spending_GDP_Ratio" _ hrect
    (fun hP => zip_cols_length df _ _ _ hP.1 hP.2)

theorem addPriceAndReal_facts (df : DF) (hrect : Rect df) :
    (∀ other, other ≠ "Price_Index" → other ≠ "Real_GDP" →
      getCol (addPriceAndReal df) other = getCol df other) := by
  intro other h1 h2
  unfold addPriceAndReal
  by_cases hP : "GDP" ∈ df.colNames ∧ "Inflation_Rate" ∈ df.colNames
  · rw [if_pos hP]
    obtain ⟨ci, hci⟩ := getCol_isSome_of_mem hP.2
    have hpilen : ((cumprodCells (((getCol df "Inflation_Rate").getD []).map
        (fun c => cAdd (.num 1) (cDivQ 100 c)))).map (cMulQ 100)).length
          = df.rows.length := by
      rw [hci]
      simp [cumprodCells_length, getCol_length hci]
    have hrect4 := setCol_rect df "Price_Index"
      ((cumprodCells (((getCol df "Inflation_Rate").getD []).map
        (fun c => cAdd (.num 1) (cDivQ 100 c)))).map (cMulQ 100)) hrect
    have hlen4 := setCol_rows_length df "Price_Index"
      ((cumprodCells (((getCol df "Inflation_Rate").getD []).map
        (fun c => cAdd (.num 1) (cDivQ 100 c)))).map (cMulQ 100))
      (le_of_eq hpilen.symm)
    have hgdp4 : "GDP" ∈ (setCol df "Price_Index"
        ((cumprodCells (((getCol df "Inflation_Rate").getD []).map
          (fun c => cAdd (.num 1) (cDivQ 100 c)))).map (cMulQ 100))).colNames :=
      (mem_setCol_colNames df _ _ _).mpr (Or.inl hP.1)
    have hpi4 : "Price_Index" ∈ (setCol df "Price_Index"
        ((cumprodCells (((getCol df "Inflation_Rate").getD []).map
          (fun c => cAdd (.num 1) (cDivQ 100 c)))).map (cMulQ 100))).colNames :=
      (mem_setCol_colNames df _ _ _).mpr (Or.inr rfl)
    have hrg := zip_cols_length _ "GDP" "Price_Index"
      (fun g p => cDiv g (cDivQ 100 p)) hgdp4 hpi4
    rw [getCol_setCol_other _ "Real_GDP" other _ h2 hrect4
      (by rw [hrg, hlen4])]
    rw [getCol_setCol_other df "Price_Index" other _ h1 hrect
      (le_of_eq hpilen.symm)]
  · rw [if_neg hP]

/-- C5: with GDP present and a fully numeric Inflation_Rate column, the
Price_Index column holds, row by row, `100` times the running product of
`(1 + Inflation_Rate/100)`; its row 0 is `100 * (1 + Inflation_Rate[0]/100)`,
and the values are non-decreasing whenever every inflation rate is
non-negative. -/
theorem add_derived_price_index (df : DF) (hwf : df.WF)
    (hgdp : "GDP" ∈ df.colNames) (rs : List ℚ)
    (hinf : getColQ df "Inflation_Rate" = some rs) :
    (getCol (add_derived_variables df) "Price_Index"
      = some (((List.range rs.length).map
          (fun k => 100 * ((rs.take (k + 1)).map (fun r => 1 + r / 100)).prod)).map
          Cell.num)) ∧
    (0 < rs.length →
      ((List.range rs.length).map
        (fun k => 100 * ((rs.take (k + 1)).map (fun r => 1 + r / 100)).prod)).getD 0 0
        = 100 * (1 + rs.getD 0 0 / 100)) ∧
    ((∀ r ∈ rs, 0 ≤ r) →
      List.Chain' (fun a b => a ≤ b)
        ((List.range rs.length).map
          (fun k => 100 * ((rs.take (k + 1)).map (fun r => 1 + r / 100)).prod))) := by
  have hrect : Rect df := hwf.2
  have hic : getCol df "Inflation_Rate" = some (rs.map Cell.num) := getColQ_eq_some hinf
  have hrslen : rs.length = df.rows.length := by
    simpa using getCol_length hic
  obtain ⟨hr1, hl1, hget1, hmem1⟩ := addGdpGrowth_facts df hrect
  obtain ⟨hr2, hl2, hget2, hmem2⟩ := addFiscalBalance_facts (addGdpGrowth df) hr1
  obtain ⟨hr3, hl3, hget3, hmem3⟩ :=
    addGovSpending_facts (addFiscalBalance (addGdpGrowth df)) hr2
  have hic3 : getCol (addGovSpending (addFiscalBalance (addGdpGrowth df)))
      "Inflation_Rate" = some (rs.map Cell.num) := by
    rw [hget3 _ (by decide), hget2 _ (by decide), hget1 _ (by decide), hic]
  have hgdp3 : "GDP" ∈ (addGovSpending (addFiscalBalance (addGdpGrowth df))).colNames :=
    hmem3 _ (hmem2 _ (hmem1 _ hgdp))
  have hinf3 : "Inflation_Rate"
      ∈ (addGovSpending (addFiscalBalance (addGdpGrowth df))).colNames :=
    getCol_isSome_mem hic3
  have hl3' : (addGovSpending (addFiscalBalance (addGdpGrowth df))).rows.length
      = df.rows.length := by rw [hl3, hl2, hl1]
  have hPI : (cumprodCells (((getCol (addGovSpending (addFiscalBalance
          (addGdpGrowth df))) "Inflation_Rate").getD []).map
        (fun c => cAdd (.num 1) (cDivQ 100 c)))).map (cMulQ 100)
      = ((List.range rs.length).map
          (fun k => 100 * ((rs.take (k + 1)).map (fun r => 1 + r / 100)).prod)).map
          Cell.num := by
    rw [hic3]
    have hmapinf : ((rs.map Cell.num).map (fun c => cAdd (.num 1) (cDivQ 100 c)))
        = (rs.map (fun r => 1 + r / 100)).map Cell.num := by
      rw [List.map_map, List.map_map]
      exact List.map_congr_left (fun r _ => by simp [cAdd, cDivQ])
    rw [show ((some (rs.map Cell.num)).getD [] : List Cell) = rs.map Cell.num from rfl]
    rw [hmapinf]
    unfold cumprodCells
    rw [cumprodGo_num 1 (rs.map (fun r => 1 + r / 100))]
    rw [List.length_map, List.map_map, List.map_map]
    refine List.map_congr_left (fun k _ => ?_)
    show cMulQ 100 (Cell.num (1 * ((rs.map (fun r => 1 + r / 100)).take (k + 1)).prod))
        = Cell.num (100 * ((rs.take (k + 1)).map (fun r => 1 + r / 100)).prod)
    rw [one_mul, List.map_take]
    rfl
  refine ⟨?_, ?_, ?_⟩
  · show getCol (addPriceAndReal (addGovSpending (addFiscalBalance
      (addGdpGrowth df)))) "Price_Index" = _
    unfold addPriceAndReal
    rw [if_pos ⟨hgdp3, hinf3⟩]
    dsimp only
    set PI := (cumprodCells (((getCol (addGovSpending (addFiscalBalance
          (addGdpGrowth df))) "Inflation_Rate").getD []).map
        (fun c => cAdd (.num 1) (cDivQ 100 c)))).map (cMulQ 100) with hPIdef
    have hpilen : PI.length
        = (addGovSpending (addFiscalBalance (addGdpGrowth df))).rows.length := by
      rw [hPI, hl3']
      simp [hrslen]
    have hget4 := getCol_setCol_same (addGovSpending (addFiscalBalance
        (addGdpGrowth df))) "Price_Index" PI hr3 hpilen
    have hrect4 := setCol_rect (addGovSpending (addFiscalBalance
        (addGdpGrowth df))) "Price_Index" PI hr3
    have hlen4 := setCol_rows_length (addGovSpending (addFiscalBalance
        (addGdpGrowth df))) "Price_Index" PI (le_of_eq hpilen.symm)
    have hgdp4 := (mem_setCol_colNames (addGovSpending (addFiscalBalance
        (addGdpGrowth df))) "Price_Index" "GDP" PI).mpr (Or.inl hgdp3)
    have hpi4 := (mem_setCol_colNames (addGovSpending (addFiscalBalance
        (addGdpGrowth df))) "Price_Index" "Price_Index" PI).mpr (Or.inr rfl)
    have hrg := zip_cols_length _ "GDP" "Price_Index"
      (fun g p => cDiv g (cDivQ 100 p)) hgdp4 hpi4
    rw [getCol_setCol_other _ "Real_GDP" "Price_Index" _ (by decide) hrect4
      (by rw [hrg, hlen4])]
    rw [hget4, hPI]
  · intro h0
    cases rs with
    | nil => simp at h0
    | cons r0 t => simp
  · intro hnn
    rw [List.chain'_map]
    cases hn : rs.length with
    | zero => simp [hn]
    | succ n' =>
      rw [List.chain'_range_succ]
      intro m hm
      have hm1 : m + 1 < rs.length := by omega
      have htake : rs.take (m + 1 + 1) = rs.take (m + 1) ++ (rs[m + 1]?).toList :=
        List.take_succ
      have hsome : ∃ r, rs[m + 1]? = some r :=
        ⟨rs[m + 1], List.getElem?_eq_getElem hm1⟩
      obtain ⟨r, hr⟩ := hsome
      have hrmem : r ∈ rs := List.getElem?_mem hr
      have hrnn : 0 ≤ r := hnn r hrmem
      have hprodnn : 0 ≤ ((rs.take (m + 1)).map (fun x => 1 + x / 100)).prod := by
        refine List.prod_nonneg (fun a ha => ?_)
        obtain ⟨x, hx, rfl⟩ := List.mem_map.mp ha
        have hxnn : 0 ≤ x := hnn x (List.take_subset _ _ hx)
        positivity
      rw [htake, hr]
      simp only [Option.toList_some, List.map_append, List.prod_append,
        List.map_cons, List.map_nil, List.prod_cons, List.prod_nil, mul_one]
      have hfac : (1 : ℚ) ≤ 1 + r / 100 := by
        have hq : (0 : ℚ) ≤ r / 100 := by positivity
        linarith
      calc 100 * ((rs.take (m + 1)).map (fun x => 1 + x / 100)).prod
          = 100 * (((rs.take (m + 1)).map (fun x => 1 + x / 100)).prod * 1) := by ring
        _ ≤ 100 * (((rs.take (m + 1)).map (fun x => 1 + x / 100)).prod * (1 + r / 100)) := by
            have := mul_le_mul_of_nonneg_left hfac hprodnn
            nlinarith

/-- Witness for C5 at a two-row table with inflation rates 10 and 20. -/
theorem add_derived_price_index_witness :
    DF.WF dfC5 ∧ "GDP" ∈ dfC5.colNames ∧
    getColQ dfC5 "Inflation_Rate" = some [10, 20] ∧
    ((getCol (add_derived_variables dfC5) "Price_Index"
      = some (((List.range ([10, 20] : List ℚ).length).map
          (fun k => 100 * ((([10, 20] : List ℚ).take (k + 1)).map
            (fun r => 1 + r / 100)).prod)).map Cell.num)) ∧
     (0 < ([10, 20] : List ℚ).length →
       ((List.range ([10, 20] : List ℚ).length).map
         (fun k => 100 * ((([10, 20] : List ℚ).take (k + 1)).map
           (fun r => 1 + r / 100)).prod)).getD 0 0
         = 100 * (1 + ([10, 20] : List ℚ).getD 0 0 / 100)) ∧
     ((∀ r ∈ ([10, 20] : List ℚ), 0 ≤ r) →
       List.Chain' (fun a b => a ≤ b)
         ((List.range ([10, 20] : List ℚ).length).map
           (fun k => 100 * ((([10, 20] : List ℚ).take (k + 1)).map
             (fun r => 1 + r / 100)).prod)))) :=
  ⟨by decide, by decide, by decide,
   add_derived_price_index dfC5 (by decide) (by decide) [10, 20] (by decide)⟩

theorem ffillGo_num (last : Option Cell) (qs : List ℚ) :
    ffillGo last (qs.map Cell.num) = qs.map Cell.num := by
  induction qs generalizing last with
  | nil => rfl
  | cons q t ih =>
    show Cell.num q :: ffillGo (some (Cell.num q)) (t.map Cell.num)
      = Cell.num q :: t.map Cell.num
    rw [ih]

theorem ffillCells_num (qs : List ℚ) : ffillCells (qs.map Cell.num) = qs.map Cell.num :=
  ffillGo_num none qs

theorem shiftCells_num_getElem (qs : List ℚ) (i : ℕ) (hi : i < qs.length) :
    (shiftCells 12 (qs.map Cell.num))[i]?
      = if 12 ≤ i then some (Cell.num (qs.getD (i - 12) 0)) else some Cell.na := by
  unfold shiftCells
  rw [List.getElem?_take, if_pos (by simpa using hi)]
  rw [List.getElem?_append]
  by_cases h12 : i < 12
  · rw [if_pos (by simpa using h12), List.getElem?_replicate, if_pos h12,
      if_neg (by omega)]
  · rw [if_neg (by simpa using h12), if_pos (by omega)]
    have hib : i - (List.replicate 12 Cell.na).length = i - 12 := by simp
    rw [hib, List.getElem?_map,
      List.getElem?_eq_getElem (by omega : i - 12 < qs.length)]
    have hgd : qs.getD (i - 12) 0 = qs[i - 12] := by
      rw [List.getD_eq_getElem?_getD,
        List.getElem?_eq_getElem (by omega : i - 12 < qs.length)]
      rfl
    rw [hgd]
    rfl

theorem pct_out_getD (qs : List ℚ) (i : ℕ) (hi : i < qs.length) :
    ((pctChange12 (qs.map Cell.num)).map (cMulQ 100)).getD i .na
      = if 12 ≤ i then
          (if qs.getD (i - 12) 0 = 0 then Cell.na
           else Cell.num (100 * (qs.getD i 0 / qs.getD (i - 12) 0 - 1)))
        else Cell.na := by
  have hpct : pctChange12 (qs.map Cell.num)
      = List.zipWith (fun a b => cSub (cDiv a b) (.num 1)) (qs.map Cell.num)
          (shiftCells 12 (qs.map Cell.num)) := by
    unfold pctChange12
    rw [ffillCells_num]
  rw [List.getD_eq_getElem?_getD ((pctChange12 (qs.map Cell.num)).map (cMulQ 100)) i .na]
  rw [List.getElem?_map, hpct, List.getElem?_zipWith]
  have hq : (qs.map Cell.num)[i]? = some (Cell.num (qs.getD i 0)) := by
    rw [List.getElem?_map, List.getElem?_eq_getElem hi]
    have hgd : qs.getD i 0 = qs[i] := by
      rw [List.getD_eq_getElem?_getD qs i 0, List.getElem?_eq_getElem hi]
      rfl
    rw [hgd]
    rfl
  rw [hq, shiftCells_num_getElem qs i hi]
  by_cases h12 : 12 ≤ i
  · rw [if_pos h12, if_pos h12]
    by_cases h0 : qs.getD (i - 12) 0 = 0
    · rw [if_pos h0, h0]
      simp [cDiv, cSub, cMulQ]
    · rw [if_neg h0]
      have h0' : ¬ qs[i - 12]?.getD 0 = 0 := by
        rw [← List.getD_eq_getElem?_getD]
        exact h0
      simp [cDiv, cSub, cMulQ, h0']
  · rw [if_neg h12, if_neg h12]
    simp [cDiv, cSub, cMulQ]

theorem addGdpGrowth_mem_rev (df : DF) (other : String)
    (h : other ∈ (addGdpGrowth df).colNames) :
    other ∈ df.colNames ∨ other = "GDP_Growth_Rate" := by
  unfold addGdpGrowth at h
  by_cases hP : "GDP" ∈ df.colNames ∧ df.rows.length > 12
  · rw [if_pos hP] at h
    exact (mem_setCol_colNames df _ _ _).mp h
  · rw [if_neg hP] at h
    exact Or.inl h

theorem addFiscalBalance_mem_rev (df : DF) (other : String)
    (h : other ∈ (addFiscalBalance df).colNames) :
    other ∈ df.colNames ∨ other = "Fiscal_Balance_GDP_Ratio" := by
  unfold addFiscalBalance at h
  by_cases hP : "Fiscal_Deficit" ∈ df.colNames ∧ "GDP" ∈ df.colNames
  · rw [if_pos hP] at h
    exact (mem_setCol_colNames df _ _ _).mp h
  · rw [if_neg hP] at h
    exact Or.inl h

theorem addGovSpending_mem_rev (df : DF) (other : String)
    (h : other ∈ (addGovSpending df).colNames) :
    other ∈ df.colNames ∨ other = "Gov_Spending_GDP_Ratio" := by
  unfold addGovSpending at h
  by_cases hP : "Government_Spending" ∈ df.colNames ∧ "GDP" ∈ df.colNames
  · rw [if_pos hP] at h
    exact (mem_setCol_colNames df _ _ _).mp h
  · rw [if_neg hP] at h
    exact Or.inl h

theorem addPriceAndReal_mem_rev (df : DF) (other : String)
    (h : other ∈ (addPriceAndReal df).colNames) :
    other ∈ df.colNames ∨ other = "Price_Index" ∨ other = "Real_GDP" := by
  unfold addPriceAndReal at h
  by_cases hP : "GDP" ∈ df.colNames ∧ "Inflation_Rate" ∈ df.colNames
  · rw [if_pos hP] at h
    rcases (mem_setCol_colNames _ _ _ _).mp h with h4 | hr
    · rcases (mem_setCol_colNames df _ _ _).mp h4 with hd | hp
      · exact Or.inl hd
      · exact Or.inr (Or.inl hp)
    · exact Or.inr (Or.inr hr)
  · rw [if_neg hP] at h
    exact Or.inl h

theorem addPriceAndReal_mem (df : DF) (other : String)
    (h : other ∈ df.colNames) : other ∈ (addPriceAndReal df).colNames := by
  unfold addPriceAndReal
  by_cases hP : "GDP" ∈ df.colNames ∧ "Inflation_Rate" ∈ df.colNames
  · rw [if_pos hP]
    exact (mem_setCol_colNames _ _ _ _).mpr
      (Or.inl ((mem_setCol_colNames df _ _ _).mpr (Or.inl h)))
  · rw [if_neg hP]
    exact h

/-- C6: GDP_Growth_Rate is added exactly when GDP is present and the table
has more than 12 rows (given the column is not already in the input); the
first 12 rows of the new column are missing, and each row `i ≥ 12` holds
`(GDP[i] / GDP[i-12] - 1) * 100` whenever GDP is fully numeric with a
nonzero value 12 rows earlier.  With 12 or fewer rows no column is added. -/
theorem add_derived_gdp_growth (df : DF) (hwf : df.WF)
    (hnotin : "GDP_Growth_Rate" ∉ df.colNames) :
    ("GDP_Growth_Rate" ∈ (add_derived_variables df).colNames
      ↔ ("GDP" ∈ df.colNames ∧ df.rows.length > 12)) ∧
    (∀ gdp : List ℚ, getColQ df "GDP" = some gdp → df.rows.length > 12 →
      ∃ out, getCol (add_derived_variables df) "GDP_Growth_Rate" = some out ∧
        out.length = df.rows.length ∧
        (∀ i, i < 12 → i < df.rows.length → out.getD i .na = Cell.na) ∧
        (∀ i, 12 ≤ i → i < df.rows.length → gdp.getD (i - 12) 0 ≠ 0 →
          out.getD i .na
            = Cell.num ((gdp.getD i 0 / gdp.getD (i - 12) 0 - 1) * 100))) := by
  have hrect : Rect df := hwf.2
  constructor
  · constructor
    · intro hmem
      by_contra hP
      have hrev := addPriceAndReal_mem_rev _ _ hmem
      rcases hrev with h3 | h | h
      · rcases addGovSpending_mem_rev _ _ h3 with h2 | h
        · rcases addFiscalBalance_mem_rev _ _ h2 with h1 | h
          · rcases addGdpGrowth_mem_rev _ _ h1 with h0 | h
            · exact hnotin h0
            · unfold addGdpGrowth at h1
              rw [if_neg hP] at h1
              exact hnotin h1
          · exact absurd h (by decide)
        · exact absurd h (by decide)
      · exact absurd h (by decide)
      · exact absurd h (by decide)
    · intro hP
      obtain ⟨hr1, -, -, -⟩ := addGdpGrowth_facts df hrect
      obtain ⟨-, -, -, hmem2⟩ := addFiscalBalance_facts (addGdpGrowth df) hr1
      have hr2 := (addFiscalBalance_facts (addGdpGrowth df) hr1).1
      obtain ⟨-, -, -, hmem3⟩ :=
        addGovSpending_facts (addFiscalBalance (addGdpGrowth df)) hr2
      refine addPriceAndReal_mem _ _ (hmem3 _ (hmem2 _ ?_))
      unfold addGdpGrowth
      rw [if_pos hP]
      exact (mem_setCol_colNames df _ _ _).mpr (Or.inr rfl)
  · intro gdp hgdpq hlen
    have hgc : getCol df "GDP" = some (gdp.map Cell.num) := getColQ_eq_some hgdpq
    have hglen : gdp.length = df.rows.length := by simpa using getCol_length hgc
    have hP : "GDP" ∈ df.colNames ∧ df.rows.length > 12 :=
      ⟨getCol_isSome_mem hgc, hlen⟩
    have hv1len : ((pctChange12 ((getCol df "GDP").getD [])).map (cMulQ 100)).length
        = df.rows.length := by
      rw [hgc]
      simp [pctChange12_length, hglen]
    have hstep1 : getCol (addGdpGrowth df) "GDP_Growth_Rate"
        = some ((pctChange12 ((getCol df "GDP").getD [])).map (cMulQ 100)) := by
      unfold addGdpGrowth
      rw [if_pos hP]
      exact getCol_setCol_same df "GDP_Growth_Rate" _ hrect hv1len
    obtain ⟨hr1, -, -, -⟩ := addGdpGrowth_facts df hrect
    obtain ⟨hr2', -, hget2, -⟩ := addFiscalBalance_facts (addGdpGrowth df) hr1
    obtain ⟨hr3', -, hget3, -⟩ :=
      addGovSpending_facts (addFiscalBalance (addGdpGrowth df)) hr2'
    have hout : getCol (add_derived_variables df) "GDP_Growth_Rate"
        = some ((pctChange12 ((getCol df "GDP").getD [])).map (cMulQ 100)) := by
      show getCol (addPriceAndReal (addGovSpending (addFiscalBalance
        (addGdpGrowth df)))) "GDP_Growth_Rate" = _
      rw [addPriceAndReal_facts _ hr3' _ (by decide) (by decide),
        hget3 _ (by decide), hget2 _ (by decide), hstep1]
    refine ⟨(pctChange12 ((getCol df "GDP").getD [])).map (cMulQ 100), hout,
      hv1len, ?_, ?_⟩
    · intro i hi12 hirows
      rw [hgc]
      show ((pctChange12 (gdp.map Cell.num)).map (cMulQ 100)).getD i Cell.na = Cell.na
      rw [pct_out_getD gdp i (by omega), if_neg (by omega)]
    · intro i hi12 hirows h0
      rw [hgc]
      show ((pctChange12 (gdp.map Cell.num)).map (cMulQ 100)).getD i Cell.na = _
      rw [pct_out_getD gdp i (by omega), if_pos hi12, if_neg h0, mul_comm]

/-- Witness for C6 at a 13-row GDP table. -/
theorem add_derived_gdp_growth_witness :
    DF.WF dfC6 ∧ "GDP_Growth_Rate" ∉ dfC6.colNames ∧
    getColQ dfC6 "GDP" = some ((List.range 13).map (fun i => (100 + (i : ℚ)))) ∧
    dfC6.rows.length > 12 ∧
    (∃ out, getCol (add_derived_variables dfC6) "GDP_Growth_Rate" = some out ∧
      out.length = dfC6.rows.length ∧
      (∀ i, i < 12 → i < dfC6.rows.length → out.getD i .na = Cell.na) ∧
      (∀ i, 12 ≤ i → i < dfC6.rows.length →
        ((List.range 13).map (fun i => (100 + (i : ℚ)))).getD (i - 12) 0 ≠ 0 →
        out.getD i .na
          = Cell.num ((((List.range 13).map (fun i => (100 + (i : ℚ)))).getD i 0
              / ((List.range 13).map (fun i => (100 + (i : ℚ)))).getD (i - 12) 0 - 1)
              * 100))) :=
  ⟨by decide, by decide, by with_unfolding_all decide, by decide,
   (add_derived_gdp_growth dfC6 (by decide) (by decide)).2
     ((List.range 13).map (fun i => (100 + (i : ℚ))))
     (by with_unfolding_all decide) (by decide)⟩
